import Mathlib

/-!
# go-gituse: publishing a commit through the remote object-graph API

A shallow embedding of `pkg/githubapi/githubapi.go` and `pkg/service/service.go`.

* Go `string`s that hold names, SHAs, paths, URLs and error texts are `String`;
  file content, whose bytes the code inspects, is a list of bytes (`Bytes`).
* A Go `error` is its message (`GoError`); `fmt.Errorf("p %w", err)` is `"p " ++ err`.
* A function returning `(*T, error)` returns `Except GoError T`.
* The remote side, the JSON decoder and the local file system are an environment
  (`Env`): the answer to a request may depend on every request issued before it.
  Each client call takes the list of requests issued so far and returns the
  extended list, so a run yields its result together with its request trace.
* A slice of pointers is a list of values: the elements of an element list are
  not `nil` (the Go code dereferences each of them).
* A file is the sequence of the results of its `Read` calls. The read loop of
  `getBlobDataByElement` leaves only at `io.EOF`, so it takes a bound on the number
  of `Read` calls; a function that runs it returns an `Option`, `none` meaning that
  the call has not returned within the bound.
-/

namespace GoGituse

/-- One byte of a Go string. -/
abbrev Byte := Fin 256

/-- A Go string seen as its bytes. -/
abbrev Bytes := List Byte

/-- A Go error value, identified with the text of `err.Error()`. -/
abbrev GoError := String

/-- The error of one `file.Read` call: `io.EOF`, or another error. -/
inductive ReadError where
  | eof
  | other (msg : GoError)
deriving DecidableEq, Repr

/-- The result `n, err` of one `file.Read(buf)` call: the bytes `buf[:n]` and the
error, `none` being `nil`. -/
structure ReadResult where
  chunk : Bytes := []
  err : Option ReadError := none
deriving DecidableEq, Repr

/-- An open file: the result of its k-th `Read` call, for every k. -/
abbrev File := Nat → ReadResult

/-! ## `pkg/githubapi`: payload and response structures -/

namespace githubapi

/-- The struct `GitClient`. -/
structure GitClient where
  Token : String := ""
  Owner : String := ""
  Repository : String := ""
  Branch : String := ""
deriving DecidableEq, Repr

/-- The anonymous struct `Object` of `RefResponse` and `UpdateRefResponse`. -/
structure RefObject where
  Sha : String := ""
  Type_ : String := ""
  Url : String := ""
deriving DecidableEq, Repr

/-- The struct `RefResponse`. -/
structure RefResponse where
  Ref : String := ""
  Node_id : String := ""
  Url : String := ""
  Object : RefObject := {}
deriving DecidableEq, Repr

/-- The anonymous structs `Author`, `Committer`, `Commiter`. -/
structure Signature where
  Name : String := ""
  Email : String := ""
  Date : String := ""
deriving DecidableEq, Repr

/-- The anonymous struct `Tree` of the commit responses. -/
structure TreeRef where
  Sha : String := ""
  Url : String := ""
deriving DecidableEq, Repr

/-- The anonymous struct of the `Parents` slice of the commit responses. -/
structure ParentRef where
  Sha : String := ""
  Url : String := ""
  Html_url : String := ""
deriving DecidableEq, Repr

/-- The struct `CommitResponse`. -/
structure CommitResponse where
  Sha : String := ""
  Url : String := ""
  Html_url : String := ""
  Author : Signature := {}
  Committer : Signature := {}
  Tree : TreeRef := {}
  Message : String := ""
  Parents : List ParentRef := []
deriving DecidableEq, Repr

/-- The struct `CreateBlobResponse`. -/
structure CreateBlobResponse where
  Sha : String := ""
  Url : String := ""
deriving DecidableEq, Repr

/-- The struct `BlobData`. -/
structure BlobData where
  Content : Bytes := []
  Encoding : String := ""
deriving DecidableEq, Repr

/-- The anonymous struct of the `Tree` slice of `CreateTreeResponse`. -/
structure TreeResponseEntry where
  Path : String := ""
  Mode : String := ""
  Type_ : String := ""
  SHA : String := ""
  Size : Int := 0
  URL : String := ""
deriving DecidableEq, Repr

/-- The struct `CreateTreeResponse`. -/
structure CreateTreeResponse where
  SHA : String := ""
  URL : String := ""
  Tree : List TreeResponseEntry := []
  Truncated : Bool := false
deriving DecidableEq, Repr

/-- The struct `TreeDataElement`. -/
structure TreeDataElement where
  Path : String := ""
  Mode : String := ""
  Type_ : String := ""
  Sha : String := ""
deriving DecidableEq, Repr

/-- The struct `TreeData`; `Base_tree` is a `*string`, `none` being `nil`. -/
structure TreeData where
  Base_tree : Option String := none
  Tree : List TreeDataElement := []
deriving DecidableEq, Repr

/-- The struct `CreateCommitResponse`. -/
structure CreateCommitResponse where
  Sha : String := ""
  Url : String := ""
  Html_url : String := ""
  Author : Signature := {}
  Commiter : Signature := {}
  Tree : TreeRef := {}
  Message : String := ""
  Parents : List ParentRef := []
deriving DecidableEq, Repr

/-- The struct `CommitData`. -/
structure CommitData where
  Message : String := ""
  Author : Signature := {}
  Parents : List String := []
  Tree : String := ""
deriving DecidableEq, Repr

/-- The struct `UpdRefData`. -/
structure UpdRefData where
  Sha : String := ""
  Force : Bool := false
deriving DecidableEq, Repr

/-- The struct `CreateRefData`. -/
structure CreateRefData where
  Ref : String := ""
  Sha : String := ""
deriving DecidableEq, Repr

/-- The struct `UpdateRefResponse`. -/
structure UpdateRefResponse where
  Ref : String := ""
  Node_id : String := ""
  Url : String := ""
  Object : RefObject := {}
deriving DecidableEq, Repr

/-! ## The HTTP exchange -/

/-- The value handed to `json.Marshal` for the request body; `none` is the `nil`
reader of the `GET` calls. `CreateBlob` receives a pointer that may be `nil`. -/
inductive Payload where
  | none
  | blob (b : Option BlobData)
  | tree (t : TreeData)
  | commit (c : CommitData)
  | createRef (r : CreateRefData)
  | updRef (r : UpdRefData)
deriving DecidableEq, Repr

/-- The arguments of one `requestSend` call. -/
structure Request where
  method : String
  endPoint : String
  body : Payload
  headerMap : List (String × String)
deriving DecidableEq, Repr

/-- The requests issued so far, oldest first. -/
abbrev Trace := List Request

/-- What the client reads of an `*http.Response`: the status code and the outcome of
`io.ReadAll(resp.Body)`. -/
structure HttpResponse where
  StatusCode : Nat
  Body : Except GoError String

/-- Everything outside the repository that the code talks to. -/
structure Env where
  /-- The outcome of `http.NewRequest` followed by `client.Do`, given the earlier requests. -/
  send : Trace → Request → Except GoError HttpResponse
  /-- The result of `json.Unmarshal(respData, &RefResponse{})`. -/
  unmarshalRef : String → Except GoError RefResponse
  /-- The result of `json.Unmarshal(respData, &CommitResponse{})`. -/
  unmarshalCommit : String → Except GoError CommitResponse
  /-- The result of `json.Unmarshal(respData, &CreateBlobResponse{})`. -/
  unmarshalBlob : String → Except GoError CreateBlobResponse
  /-- The result of `json.Unmarshal(respData, &CreateTreeResponse{})`. -/
  unmarshalTree : String → Except GoError CreateTreeResponse
  /-- The result of `json.Unmarshal(respData, &CreateCommitResponse{})`. -/
  unmarshalCreateCommit : String → Except GoError CreateCommitResponse
  /-- The result of `json.Unmarshal(respData, &UpdateRefResponse{})`. -/
  unmarshalUpdateRef : String → Except GoError UpdateRefResponse
  /-- The outcome of `os.Open`. -/
  openFile : String → Except GoError File

/-- The function `requestSend`: the request joins the trace, the environment answers. -/
def requestSend (env : Env) (tr : Trace) (method endPoint : String) (body : Payload)
    (headerMap : List (String × String)) : Except GoError HttpResponse × Trace :=
  let req : Request := ⟨method, endPoint, body, headerMap⟩
  (env.send tr req, tr ++ [req])

/-- The header map every call builds. -/
def authHeader (git : GitClient) : List (String × String) :=
  [("Authorization", "Bearer " ++ git.Token)]

/-- The method `GitClient.IsEmptyRepository`. -/
def IsEmptyRepository (env : Env) (git : GitClient) (tr : Trace) : Except GoError Bool × Trace :=
  let endPoint := "https://api.github.com/repos/" ++ git.Owner ++ "/" ++ git.Repository
    ++ "/git/ref/heads/" ++ git.Branch
  match requestSend env tr "GET" endPoint Payload.none (authHeader git) with
  | (.error err, tr1) => (.error err, tr1)
  | (.ok resp, tr1) =>
    match resp.Body with
    | .error err => (.error err, tr1)
    | .ok respData =>
      if resp.StatusCode = 409 then (.ok true, tr1)
      else if resp.StatusCode = 200 then (.ok false, tr1)
      else (.error respData, tr1)

/-- The method `GitClient.GetLatestRef`. -/
def GetLatestRef (env : Env) (git : GitClient) (tr : Trace) :
    Except GoError RefResponse × Trace :=
  let endPoint := "https://api.github.com/repos/" ++ git.Owner ++ "/" ++ git.Repository
    ++ "/git/refs/heads/" ++ git.Branch
  match requestSend env tr "GET" endPoint Payload.none (authHeader git) with
  | (.error err, tr1) => (.error err, tr1)
  | (.ok resp, tr1) =>
    match resp.Body with
    | .error err => (.error err, tr1)
    | .ok respData =>
      if resp.StatusCode ≠ 200 then
        match IsEmptyRepository env git tr1 with
        | (.error err, tr2) =>
          (.error ("error occured when check empty repository. " ++ err), tr2)
        | (.ok emptyFlg, tr2) =>
          if emptyFlg then (.ok {}, tr2) else (.error respData, tr2)
      else
        match env.unmarshalRef respData with
        | .error err => (.error err, tr1)
        | .ok ref => (.ok ref, tr1)

/-- The method `GitClient.CreateBlob`. -/
def CreateBlob (env : Env) (git : GitClient) (blob : Option BlobData) (tr : Trace) :
    Except GoError CreateBlobResponse × Trace :=
  let endPoint := "https://api.github.com/repos/" ++ git.Owner ++ "/" ++ git.Repository
    ++ "/git/blobs"
  match requestSend env tr "POST" endPoint (Payload.blob blob) (authHeader git) with
  | (.error err, tr1) => (.error err, tr1)
  | (.ok resp, tr1) =>
    match resp.Body with
    | .error err => (.error err, tr1)
    | .ok respData =>
      match env.unmarshalBlob respData with
      | .error err => (.error err, tr1)
      | .ok blobResponse => (.ok blobResponse, tr1)

/-- The method `GitClient.CreateTree`. -/
def CreateTree (env : Env) (git : GitClient) (tree : TreeData) (tr : Trace) :
    Except GoError CreateTreeResponse × Trace :=
  let endPoint := "https://api.github.com/repos/" ++ git.Owner ++ "/" ++ git.Repository
    ++ "/git/trees"
  match requestSend env tr "POST" endPoint (Payload.tree tree) (authHeader git) with
  | (.error err, tr1) => (.error err, tr1)
  | (.ok resp, tr1) =>
    match resp.Body with
    | .error err => (.error err, tr1)
    | .ok respData =>
      if resp.StatusCode ≠ 201 then (.error respData, tr1)
      else
        match env.unmarshalTree respData with
        | .error err => (.error err, tr1)
        | .ok treeResponse => (.ok treeResponse, tr1)

/-- The method `GitClient.CreateCommit`. -/
def CreateCommit (env : Env) (git : GitClient) (commit : CommitData) (tr : Trace) :
    Except GoError CreateCommitResponse × Trace :=
  let endPoint := "https://api.github.com/repos/" ++ git.Owner ++ "/" ++ git.Repository
    ++ "/git/commits"
  match requestSend env tr "POST" endPoint (Payload.commit commit) (authHeader git) with
  | (.error err, tr1) => (.error err, tr1)
  | (.ok resp, tr1) =>
    match resp.Body with
    | .error err => (.error err, tr1)
    | .ok respData =>
      if resp.StatusCode ≠ 201 then (.error respData, tr1)
      else
        match env.unmarshalCreateCommit respData with
        | .error err => (.error err, tr1)
        | .ok commitResponse => (.ok commitResponse, tr1)

/-- The method `GitClient.CreateRef`. -/
def CreateRef (env : Env) (git : GitClient) (refData : CreateRefData) (tr : Trace) :
    Except GoError UpdateRefResponse × Trace :=
  let endPoint := "https://api.github.com/repos/" ++ git.Owner ++ "/" ++ git.Repository
    ++ "/git/refs"
  match requestSend env tr "POST" endPoint (Payload.createRef refData) (authHeader git) with
  | (.error err, tr1) => (.error err, tr1)
  | (.ok resp, tr1) =>
    match resp.Body with
    | .error err => (.error err, tr1)
    | .ok respData =>
      if resp.StatusCode ≠ 201 then (.error respData, tr1)
      else
        match env.unmarshalUpdateRef respData with
        | .error err => (.error err, tr1)
        | .ok createRefResponse => (.ok createRefResponse, tr1)

/-- The method `GitClient.UpdateRef`. -/
def UpdateRef (env : Env) (git : GitClient) (refData : UpdRefData) (tr : Trace) :
    Except GoError UpdateRefResponse × Trace :=
  let endPoint := "https://api.github.com/repos/" ++ git.Owner ++ "/" ++ git.Repository
    ++ "/git/refs/heads/" ++ git.Branch
  match requestSend env tr "PATCH" endPoint (Payload.updRef refData) (authHeader git) with
  | (.error err, tr1) => (.error err, tr1)
  | (.ok resp, tr1) =>
    match resp.Body with
    | .error err => (.error err, tr1)
    | .ok respData =>
      if resp.StatusCode ≠ 200 then (.error respData, tr1)
      else
        match env.unmarshalUpdateRef respData with
        | .error err => (.error err, tr1)
        | .ok updRefResponse => (.ok updRefResponse, tr1)

/-- The method `GitClient.GetCommit`. -/
def GetCommit (env : Env) (git : GitClient) (commitId : String) (tr : Trace) :
    Except GoError CommitResponse × Trace :=
  let endPoint := "https://api.github.com/repos/" ++ git.Owner ++ "/" ++ git.Repository
    ++ "/git/commits/" ++ commitId
  match requestSend env tr "GET" endPoint Payload.none (authHeader git) with
  | (.error err, tr1) => (.error err, tr1)
  | (.ok resp, tr1) =>
    match resp.Body with
    | .error err => (.error err, tr1)
    | .ok respData =>
      match env.unmarshalCommit respData with
      | .error err => (.error err, tr1)
      | .ok cmtResponse => (.ok cmtResponse, tr1)

end githubapi

/-! ## Library functions used by `pkg/service` -/

/-- The byte with the given code, truncated to eight bits. -/
def byte (n : Nat) : Byte := ⟨n % 256, Nat.mod_lt _ (by decide)⟩

/-- The bytes with codes `lo, lo+1, ..., hi`. -/
def byteRange (lo hi : Nat) : List Byte :=
  (List.range (hi + 1 - lo)).map (fun i => byte (lo + i))

namespace utf8

/-- The table `first` of `unicode/utf8` for a non-ASCII leading byte: the length of
the sequence and the accepted range of its second byte; `none` is the entry `xx`. -/
def first (b : Byte) : Option (Nat × Nat × Nat) :=
  if b.val < 0xC2 then none
  else if b.val ≤ 0xDF then some (2, 0x80, 0xBF)
  else if b.val = 0xE0 then some (3, 0xA0, 0xBF)
  else if b.val = 0xED then some (3, 0x80, 0x9F)
  else if b.val ≤ 0xEF then some (3, 0x80, 0xBF)
  else if b.val = 0xF0 then some (4, 0x90, 0xBF)
  else if b.val ≤ 0xF3 then some (4, 0x80, 0xBF)
  else if b.val = 0xF4 then some (4, 0x80, 0x8F)
  else none

/-- Whether `c` lies in `lo..hi`. -/
def inRange (lo hi : Nat) (c : Byte) : Bool := decide (lo ≤ c.val) && decide (c.val ≤ hi)

/-- The function `utf8.Valid`. -/
def Valid : Bytes → Bool
  | [] => true
  | p0 :: rest =>
    if p0.val < 0x80 then Valid rest
    else
      match first p0 with
      | none => false
      | some (size, lo, hi) =>
        match rest with
        | [] => false
        | c1 :: rest1 =>
          if !(inRange lo hi c1) then false
          else if size = 2 then Valid rest1
          else
            match rest1 with
            | [] => false
            | c2 :: rest2 =>
              if !(inRange 0x80 0xBF c2) then false
              else if size = 3 then Valid rest2
              else
                match rest2 with
                | [] => false
                | c3 :: rest3 =>
                  if !(inRange 0x80 0xBF c3) then false
                  else Valid rest3

end utf8

namespace base64

/-- The padding character `=` of `StdEncoding`. -/
def padChar : Byte := byte 61

/-- The alphabet `encodeStd`, as the character of each six-bit value. -/
def encodeChar (v : Nat) : Byte :=
  if v < 26 then byte (65 + v)
  else if v < 52 then byte (71 + v)
  else if v < 62 then byte (v - 4)
  else if v = 62 then byte 43
  else byte 47

/-- The table `decodeMap` of `StdEncoding`: the six-bit value of an alphabet
character, `none` for every other byte. -/
def decodeMap (c : Byte) : Option Nat :=
  if 65 ≤ c.val ∧ c.val ≤ 90 then some (c.val - 65)
  else if 97 ≤ c.val ∧ c.val ≤ 122 then some (c.val - 71)
  else if 48 ≤ c.val ∧ c.val ≤ 57 then some (c.val + 4)
  else if c.val = 43 then some 62
  else if c.val = 47 then some 63
  else none

/-- The function `StdEncoding.EncodeToString`. -/
def EncodeToString : Bytes → Bytes
  | [] => []
  | [a] =>
    let val := a.val * 65536
    [encodeChar (val / 262144 % 64), encodeChar (val / 4096 % 64), padChar, padChar]
  | [a, b] =>
    let val := a.val * 65536 + b.val * 256
    [encodeChar (val / 262144 % 64), encodeChar (val / 4096 % 64),
      encodeChar (val / 64 % 64), padChar]
  | a :: b :: c :: rest =>
    let val := a.val * 65536 + b.val * 256 + c.val
    encodeChar (val / 262144 % 64) :: encodeChar (val / 4096 % 64) ::
      encodeChar (val / 64 % 64) :: encodeChar (val % 64) :: EncodeToString rest

/-- The quanta of `StdEncoding.Decode` once line breaks are removed: four alphabet
characters give three bytes; the last quantum may end in `=` (two bytes) or `==`
(one byte); anything else is a `CorruptInputError`. -/
def decodeQuanta : Bytes → Option Bytes
  | [] => some []
  | c0 :: c1 :: c2 :: c3 :: rest =>
    match decodeMap c0, decodeMap c1 with
    | some v0, some v1 =>
      match decodeMap c2 with
      | some v2 =>
        match decodeMap c3 with
        | some v3 =>
          let val := v0 * 262144 + v1 * 4096 + v2 * 64 + v3
          match decodeQuanta rest with
          | some out => some (byte (val / 65536) :: byte (val / 256) :: byte val :: out)
          | none => none
        | none =>
          if c3 = padChar ∧ rest = [] then
            let val := v0 * 262144 + v1 * 4096 + v2 * 64
            some [byte (val / 65536), byte (val / 256)]
          else none
      | none =>
        if c2 = padChar ∧ c3 = padChar ∧ rest = [] then
          let val := v0 * 262144 + v1 * 4096
          some [byte (val / 65536)]
        else none
    | _, _ => none
  | _ => none

/-- The function `StdEncoding.DecodeString`: `\r` and `\n` are skipped wherever they
stand, the rest is decoded quantum by quantum; `none` stands for a decoding error. -/
def DecodeString (s : Bytes) : Option Bytes :=
  decodeQuanta (s.filter (fun c => !(c = byte 10 || c = byte 13)))

end base64

/-! ## `pkg/service` -/

namespace service

open githubapi

/-- The constant `FormattedBinary`. -/
def FormattedBinary : Int := 1

/-- The constant `Utf8`. -/
def Utf8 : Int := 2

/-- The struct `GitInfo`. -/
structure GitInfo where
  client : GitClient := {}
  author_name : String := ""
  author_email : String := ""
deriving DecidableEq, Repr

/-- The struct `CommitElement`. -/
structure CommitElement where
  pathInRepo : String := ""
  pathInLocal : String := ""
  content : Bytes := []
  encodingType : Int := 0
  blobSha : String := ""
deriving DecidableEq, Repr

/-- The character class `[A-Za-z0-9+/]` as a sum of single characters. -/
def base64Class : RegularExpression Byte :=
  (byteRange 65 90 ++ byteRange 97 122 ++ byteRange 48 57 ++ [byte 43, byte 47]).foldr
    (fun c r => RegularExpression.char c + r) 0

/-- The regular expression `^[A-Za-z0-9+/]*={0,2}$`; the anchors make `MatchString`
a match of the whole text. -/
def base64Rgx : RegularExpression Byte :=
  RegularExpression.star base64Class *
    ((1 + RegularExpression.char base64.padChar) +
      RegularExpression.char base64.padChar * RegularExpression.char base64.padChar)

/-- The function `isBase64`. -/
def isBase64 (s : Bytes) : Bool :=
  if s.length % 4 ≠ 0 then false
  else if !(base64Rgx.rmatch s) then false
  else
    match base64.DecodeString s with
    | none => false
    | some decode => utf8.Valid decode

/-- The function `MakeCommitElementByFileData`. -/
def MakeCommitElementByFileData (repoPath : String) (fileContent : Bytes) (encType : Int) :
    Except GoError CommitElement :=
  if !(encType = FormattedBinary || encType = Utf8) then
    .error "invalid encType 1:binary(base64encode) 2:utf-8"
  else if encType = FormattedBinary then
    if !(isBase64 fileContent) then .error "invalid base64 data."
    else .ok { pathInRepo := repoPath, content := fileContent, encodingType := encType }
  else
    if !(utf8.Valid fileContent) then .error "invalid utf8 data."
    else .ok { pathInRepo := repoPath, content := fileContent, encodingType := encType }

/-- The read loop of `getBlobDataByElement`, before its k-th `Read` call with `data`
read so far: the loop is left at `io.EOF` only, any other error is ignored and the
bytes `buf[:n]` are appended. `fuel` bounds the `Read` calls still allowed; `none`
means that the loop is still running when they are used up. -/
def readLoop (file : File) : Nat → Nat → Bytes → Option Bytes
  | 0, _, _ => none
  | fuel + 1, k, data =>
    if (file k).err = some ReadError.eof then some data
    else readLoop file fuel (k + 1) (data ++ (file k).chunk)

/-- The function `getBlobDataByElement`, with at most `fuel` calls of `Read`;
`some (ok none)` is the return `nil, nil`, and `none` means that the function has
not returned. -/
def getBlobDataByElement (env : Env) (fuel : Nat) (element : CommitElement) :
    Option (Except GoError (Option BlobData)) :=
  if element.pathInLocal ≠ "" then
    match env.openFile element.pathInLocal with
    | .error err => some (.error err)
    | .ok file =>
      match readLoop file fuel 0 [] with
      | none => none
      | some data =>
        some (.ok (some { Content := base64.EncodeToString data, Encoding := "base64" }))
  else if element.content ≠ [] ∧ element.encodingType ≠ 0 then
    if element.encodingType = FormattedBinary then
      some (.ok (some { Content := element.content, Encoding := "base64" }))
    else if element.encodingType = Utf8 then
      some (.ok (some { Content := element.content, Encoding := "utf8" }))
    else some (.error "elementのencodingが不正です。")
  else some (.ok none)

/-- The tip commit of `CreateCommitByElement`: `GetCommit` at the reference's object
SHA when the branch has history, the zero `CommitResponse` otherwise. -/
def latestCommit (env : Env) (git : GitClient) (isEmptyRepo : Bool) (ref : RefResponse)
    (tr : Trace) : Except GoError CommitResponse × Trace :=
  if !isEmptyRepo then
    match GetCommit env git ref.Object.Sha tr with
    | (.error err, tr1) => (.error ("error occured when get the latest commit. " ++ err.quote), tr1)
    | (.ok commitResp, tr1) => (.ok commitResp, tr1)
  else (.ok {}, tr)

/-- One round of the blob loop of `CreateCommitByElement`: the blob payload, the
`CreateBlob` call, the write of `blobSha` and the tree entry built from the element. -/
def createBlobOf (env : Env) (fuel : Nat) (git : GitClient) (element : CommitElement)
    (tr : Trace) : Option (Except GoError TreeDataElement) × Trace :=
  match getBlobDataByElement env fuel element with
  | none => (none, tr)
  | some (.error err) => (some (.error ("error occured when create blobData. " ++ err)), tr)
  | some (.ok blobData) =>
    match CreateBlob env git blobData tr with
    | (.error err, tr1) => (some (.error ("error occured when create blob " ++ err)), tr1)
    | (.ok createBlobResp, tr1) =>
      let element := { element with blobSha := createBlobResp.Sha }
      (some (.ok { Path := element.pathInRepo, Mode := "100644", Type_ := "blob",
                   Sha := element.blobSha }), tr1)

/-- The blob loop of `CreateCommitByElement`, `treeDataEleList` being the entries
appended so far. -/
def createBlobs (env : Env) (fuel : Nat) (git : GitClient) :
    List CommitElement → List TreeDataElement → Trace →
      Option (Except GoError (List TreeDataElement)) × Trace
  | [], treeDataEleList, tr => (some (.ok treeDataEleList), tr)
  | element :: rest, treeDataEleList, tr =>
    match createBlobOf env fuel git element tr with
    | (none, tr1) => (none, tr1)
    | (some (.error err), tr1) => (some (.error err), tr1)
    | (some (.ok treeDataEle), tr1) =>
      createBlobs env fuel git rest (treeDataEleList ++ [treeDataEle]) tr1

/-- The last step of `CreateCommitByElement`: create the reference on an empty
repository, update it otherwise. The reference name printed on success is not kept. -/
def pointBranch (env : Env) (git : GitClient) (isEmptyRepo : Bool)
    (createCommitResp : CreateCommitResponse) (tr : Trace) :
    Except GoError CreateCommitResponse × Trace :=
  if isEmptyRepo then
    match CreateRef env git { Ref := "ref/head/" ++ git.Branch, Sha := createCommitResp.Sha } tr with
    | (.error err, tr1) => (.error ("error occured when CreateRef. " ++ err), tr1)
    | (.ok _, tr1) => (.ok createCommitResp, tr1)
  else
    match UpdateRef env git { Sha := createCommitResp.Sha, Force := false } tr with
    | (.error err, tr1) => (.error ("error occured when UpdateRef. " ++ err), tr1)
    | (.ok _, tr1) => (.ok createCommitResp, tr1)

/-- The method `GitInfo.CreateCommitByElement`, with at most `fuel` calls of `Read`
for each local file. The argument `date` is the text of `time.Now()` in the zone
`Asia/Tokyo`, formatted `2006-01-02T15:04:05+09:00`. The result `none` means that the
method has not returned; the trace then holds the requests issued so far. -/
def CreateCommitByElement (env : Env) (fuel : Nat) (gitInfo : GitInfo) (date : String)
    (commitMsg : String) (elementList : List CommitElement) (tr : Trace) :
    Option (Except GoError CreateCommitResponse) × Trace :=
  let git := gitInfo.client
  match GetLatestRef env git tr with
  | (.error err, tr1) => (some (.error ("error occured when get the latest ref. " ++ err)), tr1)
  | (.ok ref, tr1) =>
    let isEmptyRepo : Bool := decide (ref.Ref = "")
    match latestCommit env git isEmptyRepo ref tr1 with
    | (.error err, tr2) => (some (.error err), tr2)
    | (.ok commitResp, tr2) =>
      match createBlobs env fuel git elementList [] tr2 with
      | (none, tr3) => (none, tr3)
      | (some (.error err), tr3) => (some (.error err), tr3)
      | (some (.ok treeDataEleList), tr3) =>
        let baseTree : Option String := if isEmptyRepo then none else some commitResp.Tree.Sha
        let tree : TreeData := { Base_tree := baseTree, Tree := treeDataEleList }
        match CreateTree env git tree tr3 with
        | (.error err, tr4) => (some (.error ("error occured when create tree. " ++ err)), tr4)
        | (.ok createTreeResp, tr4) =>
          let parents : List String := if !isEmptyRepo then [commitResp.Sha] else []
          let commitData : CommitData :=
            { Message := commitMsg,
              Author := { Name := gitInfo.author_name, Email := gitInfo.author_email, Date := date },
              Parents := parents,
              Tree := createTreeResp.SHA }
          match CreateCommit env git commitData tr4 with
          | (.error err, tr5) => (some (.error ("error occured when CreateCommit. " ++ err)), tr5)
          | (.ok createCommitResp, tr5) =>
            match pointBranch env git isEmptyRepo createCommitResp tr5 with
            | (result, tr6) => (some result, tr6)

/-- The function `strings.Split` for a separator of one character. -/
def split (sep : Char) : List Char → List (List Char)
  | [] => [[]]
  | c :: cs =>
    if c = sep then [] :: split sep cs
    else
      match split sep cs with
      | [] => [[c]]
      | w :: ws => (c :: w) :: ws

/-- One call of the function that `filepath.WalkDir` is given: the path visited,
whether the entry is a directory, and the error the walk met there, if any. -/
structure WalkVisit where
  path : String
  isDir : Bool
  err : Option GoError := none
deriving DecidableEq, Repr

/-- The body of the function handed to `filepath.WalkDir`, for a non-directory:
the path is split at the separator and all but its first component are joined
with `/`. -/
def repoPathOf (pathSeparator : Char) (path : String) : String :=
  let pathEle := (split pathSeparator path.toList).map String.mk
  "/".intercalate (pathEle.drop 1)

/-- The walk of `MakeCommitElementListByLocalPath` over the visits that
`filepath.WalkDir` makes, in order; the first visit with an error ends it. -/
def walkVisits (pathSeparator : Char) :
    List WalkVisit → List CommitElement → Except GoError (List CommitElement)
  | [], commitEleList => .ok commitEleList
  | v :: rest, commitEleList =>
    match v.err with
    | some err => .error err
    | none =>
      if !v.isDir then
        walkVisits pathSeparator rest
          (commitEleList ++ [{ pathInRepo := repoPathOf pathSeparator v.path, pathInLocal := v.path }])
      else walkVisits pathSeparator rest commitEleList

/-- The function `MakeCommitElementListByLocalPath`; `walkDir` gives the visits of
`filepath.WalkDir(localPath, ...)` and `pathSeparator` is `os.PathSeparator`. -/
def MakeCommitElementListByLocalPath (walkDir : String → List WalkVisit) (pathSeparator : Char)
    (localPath : String) : Except GoError (List CommitElement) :=
  match walkVisits pathSeparator (walkDir localPath) [] with
  | .error err => .error ("error occured when process file in localPath. " ++ err)
  | .ok commitEleList => .ok commitEleList

/-- The method `GitInfo.CreateCommitByLocalDir`. -/
def CreateCommitByLocalDir (env : Env) (fuel : Nat) (walkDir : String → List WalkVisit)
    (pathSeparator : Char) (gitInfo : GitInfo) (date : String) (commitMsg : String)
    (localPath : String) (tr : Trace) : Option (Except GoError CreateCommitResponse) × Trace :=
  match MakeCommitElementListByLocalPath walkDir pathSeparator localPath with
  | .error err => (some (.error ("error occured when make commitElementList. " ++ err)), tr)
  | .ok commitEleList =>
    match CreateCommitByElement env fuel gitInfo date commitMsg commitEleList tr with
    | (none, tr1) => (none, tr1)
    | (some (.error err), tr1) => (some (.error ("error occured when createCommit. " ++ err)), tr1)
    | (some (.ok createCommitResp), tr1) => (some (.ok createCommitResp), tr1)

/-! ## Vocabulary of the statements -/

/-- The request of `GetLatestRef`: the primary read of the branch reference. -/
def refRequest (git : GitClient) : Request :=
  ⟨"GET", "https://api.github.com/repos/" ++ git.Owner ++ "/" ++ git.Repository
    ++ "/git/refs/heads/" ++ git.Branch, Payload.none, authHeader git⟩

/-- The request of `IsEmptyRepository`: the secondary probe. -/
def probeRequest (git : GitClient) : Request :=
  ⟨"GET", "https://api.github.com/repos/" ++ git.Owner ++ "/" ++ git.Repository
    ++ "/git/ref/heads/" ++ git.Branch, Payload.none, authHeader git⟩

/-- The request of `GetCommit`. -/
def commitReadRequest (git : GitClient) (commitId : String) : Request :=
  ⟨"GET", "https://api.github.com/repos/" ++ git.Owner ++ "/" ++ git.Repository
    ++ "/git/commits/" ++ commitId, Payload.none, authHeader git⟩

/-- The request of `CreateBlob`. -/
def blobRequest (git : GitClient) (blob : Option BlobData) : Request :=
  ⟨"POST", "https://api.github.com/repos/" ++ git.Owner ++ "/" ++ git.Repository
    ++ "/git/blobs", Payload.blob blob, authHeader git⟩

/-- The request of `CreateTree`. -/
def treeRequest (git : GitClient) (tree : TreeData) : Request :=
  ⟨"POST", "https://api.github.com/repos/" ++ git.Owner ++ "/" ++ git.Repository
    ++ "/git/trees", Payload.tree tree, authHeader git⟩

/-- The request of `CreateCommit`. -/
def commitRequest (git : GitClient) (commit : CommitData) : Request :=
  ⟨"POST", "https://api.github.com/repos/" ++ git.Owner ++ "/" ++ git.Repository
    ++ "/git/commits", Payload.commit commit, authHeader git⟩

/-- The request of `CreateRef`. -/
def createRefRequest (git : GitClient) (refData : CreateRefData) : Request :=
  ⟨"POST", "https://api.github.com/repos/" ++ git.Owner ++ "/" ++ git.Repository
    ++ "/git/refs", Payload.createRef refData, authHeader git⟩

/-- The request of `UpdateRef`. -/
def updRefRequest (git : GitClient) (refData : UpdRefData) : Request :=
  ⟨"PATCH", "https://api.github.com/repos/" ++ git.Owner ++ "/" ++ git.Repository
    ++ "/git/refs/heads/" ++ git.Branch, Payload.updRef refData, authHeader git⟩

/-- The tree entry that the blob loop builds for an element whose blob got `resp`. -/
def entryOf (element : CommitElement) (resp : CreateBlobResponse) : TreeDataElement :=
  { Path := element.pathInRepo, Mode := "100644", Type_ := "blob", Sha := resp.Sha }

/-- The create-tree payloads of a trace, in order. -/
def treePayloads (tr : Trace) : List TreeData :=
  tr.filterMap (fun r => match r.body with | Payload.tree t => some t | _ => none)

/-- The create-commit payloads of a trace, in order. -/
def commitPayloads (tr : Trace) : List CommitData :=
  tr.filterMap (fun r => match r.body with | Payload.commit c => some c | _ => none)

/-- The create-reference payloads of a trace, in order. -/
def createRefPayloads (tr : Trace) : List CreateRefData :=
  tr.filterMap (fun r => match r.body with | Payload.createRef c => some c | _ => none)

/-- The update-reference payloads of a trace, in order. -/
def updRefPayloads (tr : Trace) : List UpdRefData :=
  tr.filterMap (fun r => match r.body with | Payload.updRef c => some c | _ => none)

/-- The create-blob payloads of a trace, in order. -/
def blobPayloads (tr : Trace) : List (Option BlobData) :=
  tr.filterMap (fun r => match r.body with | Payload.blob b => some b | _ => none)

/-- The write calls of a trace: every request that is not a `GET`. -/
def writes (tr : Trace) : Trace := tr.filter (fun r => decide (r.method ≠ "GET"))

/-! ## Worked environments

A scripted remote answers the n-th request of a call with the n-th entry of its
script, and the decoder knows the handful of bodies the scripts use: each is decoded
as `json.Unmarshal` decodes it (absent fields stay zero, unknown fields are dropped,
text that is not JSON is an error). The scripted file system holds the directory
`repo_test` with the regular file `a.txt`, whose content is `hi`, and the symbolic
link `link` to a directory, which opens and then fails at every `Read`; beside it
lies the empty regular file `empty.txt`. -/

deriving instance DecidableEq for Except

/-- A remote that answers by position in a script. -/
def scriptedSend (script : List (Except GoError HttpResponse)) (tr : Trace) (_req : Request) :
    Except GoError HttpResponse :=
  script.getD tr.length (.error "connection refused")

/-- The body `{"ref":"refs/heads/main","object":{"sha":"c0"}}`. -/
def refBody : String := "\x7b\"ref\":\"refs/heads/main\",\"object\":\x7b\"sha\":\"c0\"\x7d\x7d"

/-- The body `{"sha":"c0","tree":{"sha":"t0"}}`. -/
def tipBody : String := "\x7b\"sha\":\"c0\",\"tree\":\x7b\"sha\":\"t0\"\x7d\x7d"

/-- The body `{"sha":"b1"}`. -/
def blobBody1 : String := "\x7b\"sha\":\"b1\"\x7d"

/-- The body `{"sha":"b2"}`. -/
def blobBody2 : String := "\x7b\"sha\":\"b2\"\x7d"

/-- The body `{"sha":"t1"}`. -/
def treeBody : String := "\x7b\"sha\":\"t1\"\x7d"

/-- The body `{"sha":"c1"}`. -/
def createdBody : String := "\x7b\"sha\":\"c1\"\x7d"

/-- The body `{"ref":"refs/heads/main","object":{"sha":"c1"}}`. -/
def movedBody : String := "\x7b\"ref\":\"refs/heads/main\",\"object\":\x7b\"sha\":\"c1\"\x7d\x7d"

/-- The body `{"message":"Not Found"}`. -/
def notFoundBody : String := "\x7b\"message\":\"Not Found\"\x7d"

/-- The body `{"message":"Git Repository is empty."}`. -/
def emptyRepoBody : String := "\x7b\"message\":\"Git Repository is empty.\"\x7d"

/-- The body `{"message":"Server Error"}`. -/
def serverErrorBody : String := "\x7b\"message\":\"Server Error\"\x7d"

/-- Whether the body is one of the JSON objects that carry only a `message`. -/
def isMessageBody (body : String) : Bool :=
  body = notFoundBody || body = emptyRepoBody || body = serverErrorBody

/-- The `message` of the JSON objects that carry only a `message`. -/
def messageOf (body : String) : Option String :=
  if body = notFoundBody then some "Not Found"
  else if body = emptyRepoBody then some "Git Repository is empty."
  else if body = serverErrorBody then some "Server Error"
  else none

/-- The error of `json.Unmarshal` on a text of the scripts that is not JSON. -/
def syntaxError (body : String) : GoError :=
  if body = "Bad Gateway" then "invalid character \x27B\x27 looking for beginning of value"
  else "invalid character"

/-- The regular file `repo_test/a.txt`: the first `Read` gives `hi`, the next ones
`io.EOF`. -/
def textFile : File := fun k =>
  if k = 0 then { chunk := [byte 104, byte 105] } else { err := some ReadError.eof }

/-- The regular file `empty.txt`: every `Read` gives `io.EOF`. -/
def emptyFile : File := fun _ => { err := some ReadError.eof }

/-- The symbolic link `repo_test/link` to a directory: it opens, and every `Read`
gives no byte and the error `is a directory`. -/
def directoryFile : File := fun _ =>
  { err := some (ReadError.other "read repo_test/link: is a directory") }

/-- The scripted environment. -/
def scriptedEnv (script : List (Except GoError HttpResponse)) : Env where
  send := scriptedSend script
  unmarshalRef body :=
    if body = refBody then .ok { Ref := "refs/heads/main", Object := { Sha := "c0" } }
    else if isMessageBody body then .ok {}
    else .error (syntaxError body)
  unmarshalCommit body :=
    if body = tipBody then .ok { Sha := "c0", Tree := { Sha := "t0" } }
    else
      match messageOf body with
      | some message => .ok { Message := message }
      | none => .error (syntaxError body)
  unmarshalBlob body :=
    if body = blobBody1 then .ok { Sha := "b1" }
    else if body = blobBody2 then .ok { Sha := "b2" }
    else if isMessageBody body then .ok {}
    else .error (syntaxError body)
  unmarshalTree body :=
    if body = treeBody then .ok { SHA := "t1" }
    else if isMessageBody body then .ok {}
    else .error (syntaxError body)
  unmarshalCreateCommit body :=
    if body = createdBody then .ok { Sha := "c1" }
    else
      match messageOf body with
      | some message => .ok { Message := message }
      | none => .error (syntaxError body)
  unmarshalUpdateRef body :=
    if body = movedBody then .ok { Ref := "refs/heads/main", Object := { Sha := "c1" } }
    else if isMessageBody body then .ok {}
    else .error (syntaxError body)
  openFile path :=
    if path = "repo_test/a.txt" then .ok textFile
    else if path = "repo_test/link" then .ok directoryFile
    else if path = "empty.txt" then .ok emptyFile
    else .error ("open " ++ path ++ ": no such file or directory")

/-- A client of the worked examples. -/
def sampleInfo : GitInfo :=
  { client := { Token := "k", Owner := "o", Repository := "r", Branch := "main" },
    author_name := "a", author_email := "a@example.com" }

/-- Two elements as `MakeCommitElementByFileData` builds them: the text `hi` and
the base64 text `QUJD`. -/
def sampleElements : List CommitElement :=
  [{ pathInRepo := "test2.txt", content := [byte 104, byte 105], encodingType := 2 },
   { pathInRepo := "test3.png", content := [byte 81, byte 85, byte 74, byte 68],
     encodingType := 1 }]

/-- A branch with history: the reference and its commit are read, two blobs, the
tree and the commit are created, and the reference is updated. -/
def historyScript : List (Except GoError HttpResponse) :=
  [.ok ⟨200, .ok refBody⟩, .ok ⟨200, .ok tipBody⟩, .ok ⟨201, .ok blobBody1⟩,
   .ok ⟨201, .ok blobBody2⟩, .ok ⟨201, .ok treeBody⟩, .ok ⟨201, .ok createdBody⟩,
   .ok ⟨200, .ok movedBody⟩]

/-- A branch with history, for a run that creates one blob. -/
def oneBlobScript : List (Except GoError HttpResponse) :=
  [.ok ⟨200, .ok refBody⟩, .ok ⟨200, .ok tipBody⟩, .ok ⟨201, .ok blobBody1⟩,
   .ok ⟨201, .ok treeBody⟩, .ok ⟨201, .ok createdBody⟩, .ok ⟨200, .ok movedBody⟩]

/-- An empty repository: the primary read is rejected, the probe reports the
conflict, and the reference is created at the end. -/
def emptyScript : List (Except GoError HttpResponse) :=
  [.ok ⟨404, .ok notFoundBody⟩, .ok ⟨409, .ok emptyRepoBody⟩, .ok ⟨201, .ok blobBody1⟩,
   .ok ⟨201, .ok blobBody2⟩, .ok ⟨201, .ok treeBody⟩, .ok ⟨201, .ok createdBody⟩,
   .ok ⟨201, .ok movedBody⟩]

/-- A branch with history on which the second create-blob call is answered by a
gateway with a body that is not JSON. -/
def brokenBlobScript : List (Except GoError HttpResponse) :=
  [.ok ⟨200, .ok refBody⟩, .ok ⟨200, .ok tipBody⟩, .ok ⟨201, .ok blobBody1⟩,
   .ok ⟨502, .ok "Bad Gateway"⟩, .ok ⟨201, .ok treeBody⟩, .ok ⟨201, .ok createdBody⟩,
   .ok ⟨200, .ok movedBody⟩]

/-! ## Padded standard base64, as the specification words it -/

/-- A character of the standard base64 alphabet: `A`-`Z`, `a`-`z`, `0`-`9`, `+`, `/`. -/
def InAlphabet (c : Byte) : Prop :=
  (65 ≤ c.val ∧ c.val ≤ 90) ∨ (97 ≤ c.val ∧ c.val ≤ 122) ∨ (48 ≤ c.val ∧ c.val ≤ 57) ∨
    c.val = 43 ∨ c.val = 47

instance : DecidablePred InAlphabet := fun c => by
  unfold InAlphabet
  infer_instance

/-- Well-formed padded standard base64: groups of four alphabet characters, the last
group being allowed to end in one or two `=`. -/
inductive WellFormedBase64 : Bytes → Prop where
  | done : WellFormedBase64 []
  | group (c0 c1 c2 c3 : Byte) (rest : Bytes) :
      InAlphabet c0 → InAlphabet c1 → InAlphabet c2 → InAlphabet c3 →
      WellFormedBase64 rest → WellFormedBase64 (c0 :: c1 :: c2 :: c3 :: rest)
  | pad1 (c0 c1 c2 : Byte) :
      InAlphabet c0 → InAlphabet c1 → InAlphabet c2 →
      WellFormedBase64 [c0, c1, c2, base64.padChar]
  | pad2 (c0 c1 : Byte) :
      InAlphabet c0 → InAlphabet c1 →
      WellFormedBase64 [c0, c1, base64.padChar, base64.padChar]

/-- The first eight bytes of every PNG file. -/
def pngSignature : Bytes :=
  [byte 0x89, byte 0x50, byte 0x4E, byte 0x47, byte 0x0D, byte 0x0A, byte 0x1A, byte 0x0A]

/-- A remote that rejects the first request with status 404 and a JSON error body. -/
def rejectScript : List (Except GoError HttpResponse) :=
  [.ok ⟨404, .ok notFoundBody⟩]

/-- A remote that rejects the first request with status 502 and a body that is not
JSON. -/
def gatewayScript : List (Except GoError HttpResponse) :=
  [.ok ⟨502, .ok "Bad Gateway"⟩]

/-- The error text `err` carries the text `body`: `body` occurs in it. -/
def Carries (err body : String) : Prop := body.toList <:+: err.toList

/-- A remote that rejects the primary read with status 404 and the probe with
status 500. -/
def probeFailsScript : List (Except GoError HttpResponse) :=
  [.ok ⟨404, .ok notFoundBody⟩, .ok ⟨500, .ok serverErrorBody⟩]

/-- The visits of `filepath.WalkDir` on the root `a/b` that holds the single file
`c/d.txt`: the root, the directory `c`, the file. -/
def walkOfAB (_localPath : String) : List WalkVisit :=
  [{ path := "a/b", isDir := true }, { path := "a/b/c", isDir := true },
   { path := "a/b/c/d.txt", isDir := false }]

/-- The visits of `filepath.WalkDir` on the root `repo_test` of the scripted file
system: the root, the file `a.txt`, the symbolic link `link`. -/
def walkOfLink (_localPath : String) : List WalkVisit :=
  [{ path := "repo_test", isDir := true }, { path := "repo_test/a.txt", isDir := false },
   { path := "repo_test/link", isDir := false }]

/-- The elements that `MakeCommitElementListByLocalPath` builds on the root
`repo_test` of the scripted file system. -/
def linkElements : List CommitElement :=
  [{ pathInRepo := "a.txt", pathInLocal := "repo_test/a.txt" },
   { pathInRepo := "link", pathInLocal := "repo_test/link" }]

/-- The visits of `filepath.WalkDir` on the root `repo_test` that holds the single
file `c/d.txt`. -/
def walkOfRepoTest (_localPath : String) : List WalkVisit :=
  [{ path := "repo_test", isDir := true }, { path := "repo_test/c", isDir := true },
   { path := "repo_test/c/d.txt", isDir := false }]

/-- The name of the reference of the client's branch, as the remote names it:
`refs/heads/<Branch>`. -/
def branchRefName (git : GitClient) : String := "refs/heads/" ++ git.Branch

/-- The address of a reference of the repository, by its name. -/
def refEndPoint (git : GitClient) (refName : String) : String :=
  "https://api.github.com/repos/" ++ git.Owner ++ "/" ++ git.Repository ++ "/git/" ++ refName

/-! ## Theorems -/

section client

variable (env : Env) (git : GitClient)

theorem IsEmptyRepository_trace (tr : Trace) :
    (IsEmptyRepository env git tr).2 = tr ++ [probeRequest git] := by
  unfold IsEmptyRepository requestSend
  simp only [probeRequest]
  repeat' split
  all_goals simp_all

theorem GetCommit_trace (commitId : String) (tr : Trace) :
    (GetCommit env git commitId tr).2 = tr ++ [commitReadRequest git commitId] := by
  unfold GetCommit requestSend
  simp only [commitReadRequest]
  repeat' split
  all_goals simp_all

theorem CreateBlob_trace (blob : Option BlobData) (tr : Trace) :
    (CreateBlob env git blob tr).2 = tr ++ [blobRequest git blob] := by
  unfold CreateBlob requestSend
  simp only [blobRequest]
  repeat' split
  all_goals simp_all

theorem CreateTree_trace (tree : TreeData) (tr : Trace) :
    (CreateTree env git tree tr).2 = tr ++ [treeRequest git tree] := by
  unfold CreateTree requestSend
  simp only [treeRequest]
  repeat' split
  all_goals simp_all

theorem CreateCommit_trace (commit : CommitData) (tr : Trace) :
    (CreateCommit env git commit tr).2 = tr ++ [commitRequest git commit] := by
  unfold CreateCommit requestSend
  simp only [commitRequest]
  repeat' split
  all_goals simp_all

theorem CreateRef_trace (refData : CreateRefData) (tr : Trace) :
    (CreateRef env git refData tr).2 = tr ++ [createRefRequest git refData] := by
  unfold CreateRef requestSend
  simp only [createRefRequest]
  repeat' split
  all_goals simp_all

theorem UpdateRef_trace (refData : UpdRefData) (tr : Trace) :
    (UpdateRef env git refData tr).2 = tr ++ [updRefRequest git refData] := by
  unfold UpdateRef requestSend
  simp only [updRefRequest]
  repeat' split
  all_goals simp_all

/-- A reference read that returns a reference with a non-empty name issued the
primary read only. -/
theorem GetLatestRef_history (tr tr1 : Trace) (ref : RefResponse)
    (h : GetLatestRef env git tr = (.ok ref, tr1)) (hne : ref.Ref ≠ "") :
    tr1 = tr ++ [refRequest git] := by
  rcases hs : env.send tr (refRequest git) with err | resp
  · simp [GetLatestRef, requestSend, ← refRequest.eq_1, hs] at h
  · rcases hb : resp.Body with err | respData
    · simp [GetLatestRef, requestSend, ← refRequest.eq_1, hs, hb] at h
    · by_cases hc : resp.StatusCode = 200
      · rcases hu : env.unmarshalRef respData with err | r
        · simp [GetLatestRef, requestSend, ← refRequest.eq_1, hs, hb, hc, hu] at h
        · simp [GetLatestRef, requestSend, ← refRequest.eq_1, hs, hb, hc, hu] at h
          exact h.2.symm
      · rcases hp : IsEmptyRepository env git (tr ++ [refRequest git]) with ⟨r, tr2⟩
        rcases r with err | flg
        · simp [GetLatestRef, requestSend, ← refRequest.eq_1, hs, hb, hc, hp] at h
        · cases flg
          · simp [GetLatestRef, requestSend, ← refRequest.eq_1, hs, hb, hc, hp] at h
          · simp [GetLatestRef, requestSend, ← refRequest.eq_1, hs, hb, hc, hp] at h
            exact absurd (by rw [← h.1]) hne

theorem latestCommit_history (ref : RefResponse) (tr tr1 : Trace) (c : CommitResponse)
    (h : latestCommit env git false ref tr = (.ok c, tr1)) :
    GetCommit env git ref.Object.Sha tr = (.ok c, tr1) ∧
      tr1 = tr ++ [commitReadRequest git ref.Object.Sha] := by
  have ht := GetCommit_trace env git ref.Object.Sha tr
  rcases hg : GetCommit env git ref.Object.Sha tr with ⟨r, tr2⟩
  rw [hg] at ht
  rcases r with err | c2
  · simp [latestCommit, hg] at h
  · simp [latestCommit, hg] at h
    obtain ⟨rfl, rfl⟩ := h
    exact ⟨rfl, ht⟩

theorem createBlobOf_ok (fuel : Nat) (e : CommitElement) (tr tr1 : Trace) (t : TreeDataElement)
    (h : createBlobOf env fuel git e tr = (some (.ok t), tr1)) :
    ∃ p r, getBlobDataByElement env fuel e = some (.ok p) ∧ (CreateBlob env git p tr).1 = .ok r ∧
      t = entryOf e r ∧ tr1 = tr ++ [blobRequest git p] := by
  rcases hp : getBlobDataByElement env fuel e with _ | (err | p)
  · simp [createBlobOf, hp] at h
  · simp [createBlobOf, hp] at h
  · have ht := CreateBlob_trace env git p tr
    rcases hb : CreateBlob env git p tr with ⟨r, tr2⟩
    rw [hb] at ht
    rcases r with err | r
    · simp [createBlobOf, hp, hb] at h
    · simp [createBlobOf, hp, hb] at h
      obtain ⟨rfl, rfl⟩ := h
      exact ⟨p, r, rfl, by rw [hb], rfl, ht⟩

theorem createBlobOf_error (fuel : Nat) (e : CommitElement) (tr tr1 : Trace) (err : GoError)
    (h : createBlobOf env fuel git e tr = (some (.error err), tr1)) :
    ((∃ e0, getBlobDataByElement env fuel e = some (.error e0)) ∧ tr1 = tr) ∨
      (∃ p e0, getBlobDataByElement env fuel e = some (.ok p) ∧
        (CreateBlob env git p tr).1 = .error e0 ∧ tr1 = tr ++ [blobRequest git p]) := by
  rcases hp : getBlobDataByElement env fuel e with _ | (e0 | p)
  · simp [createBlobOf, hp] at h
  · simp [createBlobOf, hp] at h
    exact Or.inl ⟨⟨e0, rfl⟩, h.2.symm⟩
  · have ht := CreateBlob_trace env git p tr
    rcases hb : CreateBlob env git p tr with ⟨r, tr2⟩
    rw [hb] at ht
    rcases r with e0 | r
    · simp [createBlobOf, hp, hb] at h
      exact Or.inr ⟨p, e0, rfl, by rw [hb], by rw [← h.2]; exact ht⟩
    · simp [createBlobOf, hp, hb] at h

/-- A blob loop that succeeds made one create-blob call per element, in list order,
and appended one entry per element, carrying the SHA that call returned. -/
theorem createBlobs_ok (fuel : Nat) : ∀ (elems : List CommitElement)
    (acc : List TreeDataElement) (tr tr1 : Trace) (out : List TreeDataElement),
    createBlobs env fuel git elems acc tr = (some (.ok out), tr1) →
    ∃ (payloads : List (Option BlobData)) (resps : List CreateBlobResponse),
      payloads.length = elems.length ∧ resps.length = elems.length ∧
      (∀ i e, elems[i]? = some e → ∃ p r, payloads[i]? = some p ∧ resps[i]? = some r ∧
        getBlobDataByElement env fuel e = some (.ok p) ∧
        (CreateBlob env git p (tr ++ (payloads.take i).map (blobRequest git))).1 = .ok r) ∧
      out = acc ++ List.zipWith entryOf elems resps ∧
      tr1 = tr ++ payloads.map (blobRequest git) := by
  intro elems
  induction elems with
  | nil =>
    intro acc tr tr1 out h
    simp [createBlobs] at h
    exact ⟨[], [], rfl, rfl, by simp, by simp [h.1], by simp [h.2]⟩
  | cons e rest ih =>
    intro acc tr tr1 out h
    rcases hs : createBlobOf env fuel git e tr with ⟨r, tr2⟩
    rcases r with _ | (err | t)
    · simp [createBlobs, hs] at h
    · simp [createBlobs, hs] at h
    · simp only [createBlobs, hs] at h
      obtain ⟨p, r, hp, hb, rfl, rfl⟩ := createBlobOf_ok env git fuel e tr tr2 t hs
      obtain ⟨ps, rs, hlp, hlr, hi, hout, htr⟩ := ih _ _ _ _ h
      refine ⟨p :: ps, r :: rs, by simp [hlp], by simp [hlr], ?_, ?_, ?_⟩
      · intro i e' he
        cases i with
        | zero =>
          simp at he
          subst he
          exact ⟨p, r, by simp, by simp, hp, by simpa using hb⟩
        | succ i =>
          simp at he
          obtain ⟨p', r', h1, h2, h3, h4⟩ := hi i e' he
          refine ⟨p', r', by simpa using h1, by simpa using h2, h3, ?_⟩
          simpa [List.append_assoc] using h4
      · simp [hout, List.append_assoc]
      · simp [htr, List.append_assoc]

theorem pointBranch_update (resp out : CreateCommitResponse) (tr tr1 : Trace)
    (h : pointBranch env git false resp tr = (.ok out, tr1)) :
    out = resp ∧ tr1 = tr ++ [updRefRequest git { Sha := resp.Sha, Force := false }] := by
  have ht := UpdateRef_trace env git { Sha := resp.Sha, Force := false } tr
  rcases hu : UpdateRef env git { Sha := resp.Sha, Force := false } tr with ⟨r, tr2⟩
  rw [hu] at ht
  rcases r with err | r
  · simp [pointBranch, hu] at h
  · simp [pointBranch, hu] at h
    exact ⟨h.1.symm, by rw [← h.2]; exact ht⟩

theorem pointBranch_create (resp out : CreateCommitResponse) (tr tr1 : Trace)
    (h : pointBranch env git true resp tr = (.ok out, tr1)) :
    out = resp ∧
      tr1 = tr ++ [createRefRequest git { Ref := "ref/head/" ++ git.Branch, Sha := resp.Sha }] := by
  have ht := CreateRef_trace env git { Ref := "ref/head/" ++ git.Branch, Sha := resp.Sha } tr
  rcases hu : CreateRef env git { Ref := "ref/head/" ++ git.Branch, Sha := resp.Sha } tr with ⟨r, tr2⟩
  rw [hu] at ht
  rcases r with err | r
  · simp [pointBranch, hu] at h
  · simp [pointBranch, hu] at h
    exact ⟨h.1.symm, by rw [← h.2]; exact ht⟩

end client

/-- The stages of a successful `CreateCommitByElement`. -/
theorem CreateCommitByElement_stages (env : Env) (fuel : Nat) (gitInfo : GitInfo)
    (date commitMsg : String) (elementList : List CommitElement) (tr tr' : Trace)
    (resp : CreateCommitResponse)
    (h : CreateCommitByElement env fuel gitInfo date commitMsg elementList tr
      = (some (.ok resp), tr')) :
    ∃ ref tr1 commitResp tr2 entries tr3 treeResp created tr5,
      GetLatestRef env gitInfo.client tr = (.ok ref, tr1) ∧
      latestCommit env gitInfo.client (decide (ref.Ref = "")) ref tr1 = (.ok commitResp, tr2) ∧
      createBlobs env fuel gitInfo.client elementList [] tr2 = (some (.ok entries), tr3) ∧
      (CreateTree env gitInfo.client
        { Base_tree := if decide (ref.Ref = "") = true then none else some commitResp.Tree.Sha,
          Tree := entries } tr3).1 = .ok treeResp ∧
      (CreateCommit env gitInfo.client
        { Message := commitMsg,
          Author := { Name := gitInfo.author_name, Email := gitInfo.author_email, Date := date },
          Parents := if (!decide (ref.Ref = "")) = true then [commitResp.Sha] else [],
          Tree := treeResp.SHA }
        (tr3 ++ [treeRequest gitInfo.client
          { Base_tree := if decide (ref.Ref = "") = true then none else some commitResp.Tree.Sha,
            Tree := entries }])) = (.ok created, tr5) ∧
      pointBranch env gitInfo.client (decide (ref.Ref = "")) created tr5 = (.ok resp, tr') := by
  rcases h1 : GetLatestRef env gitInfo.client tr with ⟨r1, tr1⟩
  rcases r1 with err | ref
  · simp [CreateCommitByElement, h1] at h
  rcases h2 : latestCommit env gitInfo.client (decide (ref.Ref = "")) ref tr1 with ⟨r2, tr2⟩
  rcases r2 with err | commitResp
  · simp [CreateCommitByElement, h1, h2] at h
  rcases h3 : createBlobs env fuel gitInfo.client elementList [] tr2 with ⟨r3, tr3⟩
  rcases r3 with _ | (err | entries)
  · simp [CreateCommitByElement, h1, h2, h3] at h
  · simp [CreateCommitByElement, h1, h2, h3] at h
  have ht4 := CreateTree_trace env gitInfo.client
    { Base_tree := if decide (ref.Ref = "") = true then none else some commitResp.Tree.Sha,
      Tree := entries } tr3
  rcases h4 : CreateTree env gitInfo.client
    { Base_tree := if decide (ref.Ref = "") = true then none else some commitResp.Tree.Sha,
      Tree := entries } tr3 with ⟨r4, tr4⟩
  rw [h4] at ht4
  simp only at ht4
  subst ht4
  rcases r4 with err | treeResp
  · simp only [CreateCommitByElement, h1, h2, h3, h4] at h
    simp at h
  rcases h5 : CreateCommit env gitInfo.client
    { Message := commitMsg,
      Author := { Name := gitInfo.author_name, Email := gitInfo.author_email, Date := date },
      Parents := if (!decide (ref.Ref = "")) = true then [commitResp.Sha] else [],
      Tree := treeResp.SHA }
    (tr3 ++ [treeRequest gitInfo.client
      { Base_tree := if decide (ref.Ref = "") = true then none else some commitResp.Tree.Sha,
        Tree := entries }]) with ⟨r5, tr5⟩
  rcases r5 with err | created
  · simp only [CreateCommitByElement, h1, h2, h3, h4, h5] at h
    simp at h
  · simp only [CreateCommitByElement, h1, h2, h3, h4, h5] at h
    rcases h6 : pointBranch env gitInfo.client (decide (ref.Ref = "")) created tr5 with ⟨r6, tr6⟩
    rw [h6] at h
    simp only [Prod.mk.injEq, Option.some.injEq] at h
    obtain ⟨rfl, rfl⟩ := h
    exact ⟨ref, tr1, commitResp, tr2, entries, tr3, treeResp, created, tr5, rfl, h2, h3,
      by rw [h4], h5, h6⟩

/-- A successful run on a branch with history, call by call. -/
theorem CreateCommitByElement_history (env : Env) (fuel : Nat) (gitInfo : GitInfo) (date commitMsg : String)
    (elementList : List CommitElement) (tr tr' : Trace) (ref : RefResponse)
    (resp : CreateCommitResponse)
    (href : (GetLatestRef env gitInfo.client tr).1 = .ok ref) (hhist : ref.Ref ≠ "")
    (h : CreateCommitByElement env fuel gitInfo date commitMsg elementList tr
      = (some (.ok resp), tr')) :
    ∃ (commitResp : CommitResponse) (payloads : List (Option BlobData))
      (blobResps : List CreateBlobResponse) (treeResp : CreateTreeResponse),
      (GetCommit env gitInfo.client ref.Object.Sha (tr ++ [refRequest gitInfo.client])).1
        = .ok commitResp ∧
      payloads.length = elementList.length ∧ blobResps.length = elementList.length ∧
      (∀ i e, elementList[i]? = some e → ∃ p r, payloads[i]? = some p ∧ blobResps[i]? = some r ∧
        getBlobDataByElement env fuel e = some (.ok p) ∧
        (CreateBlob env gitInfo.client p
          (tr ++ [refRequest gitInfo.client, commitReadRequest gitInfo.client ref.Object.Sha] ++
            (payloads.take i).map (blobRequest gitInfo.client))).1 = .ok r) ∧
      (CreateTree env gitInfo.client
        { Base_tree := some commitResp.Tree.Sha,
          Tree := List.zipWith entryOf elementList blobResps }
        (tr ++ [refRequest gitInfo.client, commitReadRequest gitInfo.client ref.Object.Sha] ++
          payloads.map (blobRequest gitInfo.client))).1 = .ok treeResp ∧
      (CreateCommit env gitInfo.client
        { Message := commitMsg,
          Author := { Name := gitInfo.author_name, Email := gitInfo.author_email, Date := date },
          Parents := [commitResp.Sha],
          Tree := treeResp.SHA }
        (tr ++ [refRequest gitInfo.client, commitReadRequest gitInfo.client ref.Object.Sha] ++
          payloads.map (blobRequest gitInfo.client) ++
          [treeRequest gitInfo.client
            { Base_tree := some commitResp.Tree.Sha,
              Tree := List.zipWith entryOf elementList blobResps }])).1 = .ok resp ∧
      tr' = tr ++ [refRequest gitInfo.client, commitReadRequest gitInfo.client ref.Object.Sha] ++
        payloads.map (blobRequest gitInfo.client) ++
        [treeRequest gitInfo.client
            { Base_tree := some commitResp.Tree.Sha,
              Tree := List.zipWith entryOf elementList blobResps },
          commitRequest gitInfo.client
            { Message := commitMsg,
              Author := { Name := gitInfo.author_name, Email := gitInfo.author_email,
                          Date := date },
              Parents := [commitResp.Sha],
              Tree := treeResp.SHA },
          updRefRequest gitInfo.client { Sha := resp.Sha, Force := false }] := by
  obtain ⟨ref', tr1, commitResp, tr2, entries, tr3, treeResp, created, tr5, h1, h2, h3, h4, h5, h6⟩ :=
    CreateCommitByElement_stages env fuel gitInfo date commitMsg elementList tr tr' resp h
  rw [h1] at href
  simp only [Except.ok.injEq] at href
  subst href
  have hd : decide (ref'.Ref = "") = false := by simpa using hhist
  rw [hd] at h2 h4 h5 h6
  have ht1 := GetLatestRef_history env gitInfo.client tr tr1 ref' h1 hhist
  subst ht1
  obtain ⟨h2a, h2b⟩ := latestCommit_history env gitInfo.client ref' _ tr2 commitResp h2
  subst h2b
  obtain ⟨payloads, blobResps, hlp, hlr, hcalls, hentries, htr3⟩ :=
    createBlobs_ok env gitInfo.client fuel elementList [] _ tr3 entries h3
  simp only [List.nil_append] at hentries
  subst hentries
  subst htr3
  have ht5 := CreateCommit_trace env gitInfo.client
    { Message := commitMsg,
      Author := { Name := gitInfo.author_name, Email := gitInfo.author_email, Date := date },
      Parents := [commitResp.Sha],
      Tree := treeResp.SHA }
    (tr ++ [refRequest gitInfo.client] ++
      [commitReadRequest gitInfo.client ref'.Object.Sha] ++
      payloads.map (blobRequest gitInfo.client) ++
      [treeRequest gitInfo.client
        { Base_tree := some commitResp.Tree.Sha,
          Tree := List.zipWith entryOf elementList blobResps }])
  simp only [Bool.not_false, if_true, Bool.false_eq_true, if_false] at h4 h5
  rw [h5] at ht5
  simp only at ht5
  subst ht5
  obtain ⟨rfl, h6b⟩ := pointBranch_update env gitInfo.client created resp _ tr' h6
  subst h6b
  refine ⟨commitResp, payloads, blobResps, treeResp, by rw [h2a], hlp, hlr, ?_, ?_, ?_, ?_⟩
  · intro i e he
    obtain ⟨p, r, hp1, hp2, hp3, hp4⟩ := hcalls i e he
    exact ⟨p, r, hp1, hp2, hp3, by simpa [List.append_assoc] using hp4⟩
  · simpa [List.append_assoc] using h4
  · simp only [List.append_assoc, List.singleton_append] at h5 ⊢
    rw [h5]
  · simp [List.append_assoc]

/-- The reference read issues the primary read, and the probe after it at most. -/
theorem GetLatestRef_trace (env : Env) (git : GitClient) (tr : Trace) :
    (GetLatestRef env git tr).2 = tr ++ [refRequest git] ∨
      (GetLatestRef env git tr).2 = tr ++ [refRequest git, probeRequest git] := by
  rcases hs : env.send tr (refRequest git) with err | resp
  · left; simp [GetLatestRef, requestSend, ← refRequest.eq_1, hs]
  · rcases hb : resp.Body with err | respData
    · left; simp [GetLatestRef, requestSend, ← refRequest.eq_1, hs, hb]
    · by_cases hc : resp.StatusCode = 200
      · left
        rcases hu : env.unmarshalRef respData with err | r <;>
          simp [GetLatestRef, requestSend, ← refRequest.eq_1, hs, hb, hc, hu]
      · right
        have ht := IsEmptyRepository_trace env git (tr ++ [refRequest git])
        rcases hp : IsEmptyRepository env git (tr ++ [refRequest git]) with ⟨r, tr2⟩
        rw [hp] at ht
        simp only at ht
        subst ht
        rcases r with err | flg
        · simp [GetLatestRef, requestSend, ← refRequest.eq_1, hs, hb, hc, hp]
        · cases flg <;> simp [GetLatestRef, requestSend, ← refRequest.eq_1, hs, hb, hc, hp]

/-- A successful run on an empty repository, call by call. -/
theorem CreateCommitByElement_empty (env : Env) (fuel : Nat) (gitInfo : GitInfo) (date commitMsg : String)
    (elementList : List CommitElement) (tr tr' : Trace) (ref : RefResponse)
    (resp : CreateCommitResponse)
    (href : (GetLatestRef env gitInfo.client tr).1 = .ok ref) (hempty : ref.Ref = "")
    (h : CreateCommitByElement env fuel gitInfo date commitMsg elementList tr
      = (some (.ok resp), tr')) :
    ∃ (payloads : List (Option BlobData)) (blobResps : List CreateBlobResponse)
      (treeResp : CreateTreeResponse),
      payloads.length = elementList.length ∧ blobResps.length = elementList.length ∧
      (∀ i e, elementList[i]? = some e → ∃ p r, payloads[i]? = some p ∧ blobResps[i]? = some r ∧
        getBlobDataByElement env fuel e = some (.ok p) ∧
        (CreateBlob env gitInfo.client p
          ((GetLatestRef env gitInfo.client tr).2 ++
            (payloads.take i).map (blobRequest gitInfo.client))).1 = .ok r) ∧
      (CreateTree env gitInfo.client
        { Base_tree := none, Tree := List.zipWith entryOf elementList blobResps }
        ((GetLatestRef env gitInfo.client tr).2 ++
          payloads.map (blobRequest gitInfo.client))).1 = .ok treeResp ∧
      (CreateCommit env gitInfo.client
        { Message := commitMsg,
          Author := { Name := gitInfo.author_name, Email := gitInfo.author_email, Date := date },
          Parents := [],
          Tree := treeResp.SHA }
        ((GetLatestRef env gitInfo.client tr).2 ++ payloads.map (blobRequest gitInfo.client) ++
          [treeRequest gitInfo.client
            { Base_tree := none, Tree := List.zipWith entryOf elementList blobResps }])).1
        = .ok resp ∧
      tr' = (GetLatestRef env gitInfo.client tr).2 ++ payloads.map (blobRequest gitInfo.client) ++
        [treeRequest gitInfo.client
            { Base_tree := none, Tree := List.zipWith entryOf elementList blobResps },
          commitRequest gitInfo.client
            { Message := commitMsg,
              Author := { Name := gitInfo.author_name, Email := gitInfo.author_email,
                          Date := date },
              Parents := [],
              Tree := treeResp.SHA },
          createRefRequest gitInfo.client
            { Ref := "ref/head/" ++ gitInfo.client.Branch, Sha := resp.Sha }] := by
  obtain ⟨ref', tr1, commitResp, tr2, entries, tr3, treeResp, created, tr5, h1, h2, h3, h4, h5, h6⟩ :=
    CreateCommitByElement_stages env fuel gitInfo date commitMsg elementList tr tr' resp h
  rw [h1] at href ⊢
  simp only [Except.ok.injEq] at href
  subst href
  have hd : decide (ref'.Ref = "") = true := by simpa using hempty
  rw [hd] at h2 h4 h5 h6
  simp only [latestCommit, Bool.not_true, Bool.false_eq_true, if_false, Prod.mk.injEq,
    Except.ok.injEq] at h2
  obtain ⟨h2a, h2b⟩ := h2
  subst h2a h2b
  obtain ⟨payloads, blobResps, hlp, hlr, hcalls, hentries, htr3⟩ :=
    createBlobs_ok env gitInfo.client fuel elementList [] _ tr3 entries h3
  simp only [List.nil_append] at hentries
  subst hentries
  subst htr3
  simp only [Bool.not_true, if_true, Bool.false_eq_true, if_false] at h4 h5
  have ht5 := CreateCommit_trace env gitInfo.client
    { Message := commitMsg,
      Author := { Name := gitInfo.author_name, Email := gitInfo.author_email, Date := date },
      Parents := [],
      Tree := treeResp.SHA }
    (tr1 ++ payloads.map (blobRequest gitInfo.client) ++
      [treeRequest gitInfo.client
        { Base_tree := none, Tree := List.zipWith entryOf elementList blobResps }])
  rw [h5] at ht5
  simp only at ht5
  subst ht5
  obtain ⟨rfl, h6b⟩ := pointBranch_create env gitInfo.client created resp _ tr' h6
  subst h6b
  refine ⟨payloads, blobResps, treeResp, hlp, hlr, hcalls, h4, by rw [h5], ?_⟩
  simp [List.append_assoc]

/-! ### Payloads of the requests of a trace -/

theorem treePayloads_append (a b : Trace) : treePayloads (a ++ b) = treePayloads a ++ treePayloads b := by
  simp [treePayloads, List.filterMap_append]

theorem commitPayloads_append (a b : Trace) :
    commitPayloads (a ++ b) = commitPayloads a ++ commitPayloads b := by
  simp [commitPayloads, List.filterMap_append]

theorem createRefPayloads_append (a b : Trace) :
    createRefPayloads (a ++ b) = createRefPayloads a ++ createRefPayloads b := by
  simp [createRefPayloads, List.filterMap_append]

theorem updRefPayloads_append (a b : Trace) :
    updRefPayloads (a ++ b) = updRefPayloads a ++ updRefPayloads b := by
  simp [updRefPayloads, List.filterMap_append]

theorem blobPayloads_append (a b : Trace) :
    blobPayloads (a ++ b) = blobPayloads a ++ blobPayloads b := by
  simp [blobPayloads, List.filterMap_append]

theorem payloads_of_blobRequests (git : GitClient) (ps : List (Option BlobData)) :
    treePayloads (ps.map (blobRequest git)) = [] ∧ commitPayloads (ps.map (blobRequest git)) = [] ∧
      createRefPayloads (ps.map (blobRequest git)) = [] ∧
      updRefPayloads (ps.map (blobRequest git)) = [] ∧
      blobPayloads (ps.map (blobRequest git)) = ps ∧
      writes (ps.map (blobRequest git)) = ps.map (blobRequest git) := by
  induction ps with
  | nil => simp [treePayloads, commitPayloads, createRefPayloads, updRefPayloads, blobPayloads, writes]
  | cons p ps ih =>
    obtain ⟨h1, h2, h3, h4, h5, h6⟩ := ih
    simp only [treePayloads, commitPayloads, createRefPayloads, updRefPayloads, blobPayloads,
      writes] at h1 h2 h3 h4 h5 h6 ⊢
    refine ⟨?_, ?_, ?_, ?_, ?_, ?_⟩
    · simp [blobRequest]
    · simp [blobRequest]
    · simp [blobRequest]
    · simp [blobRequest]
    · simpa [blobRequest] using h5
    · simp only [List.map_cons, List.filter_cons]
      rw [h6]
      simp [blobRequest]

theorem payloads_of_GetLatestRef (env : Env) (git : GitClient) :
    treePayloads (GetLatestRef env git []).2 = [] ∧ commitPayloads (GetLatestRef env git []).2 = [] ∧
      createRefPayloads (GetLatestRef env git []).2 = [] ∧
      updRefPayloads (GetLatestRef env git []).2 = [] ∧
      blobPayloads (GetLatestRef env git []).2 = [] ∧
      writes (GetLatestRef env git []).2 = [] := by
  rcases GetLatestRef_trace env git [] with h | h <;> rw [h] <;>
    simp [treePayloads, commitPayloads, createRefPayloads, updRefPayloads, blobPayloads, writes,
      refRequest, probeRequest]

/-! ### C1: parent and base tree on a branch with history -/

/-- On a branch with history (the reference read returns a reference with a non-empty
name), when every call succeeds, exactly one create-commit request is issued and its
parent list is the single SHA carried by the commit that was read at the reference's
object SHA; exactly one create-tree request is issued and its `base_tree` is the tree
SHA of that commit. -/
theorem CreateCommitByElement_history_links (env : Env) (fuel : Nat) (gitInfo : GitInfo)
    (date commitMsg : String) (elementList : List CommitElement) (trace : Trace)
    (ref : RefResponse) (resp : CreateCommitResponse)
    (href : (GetLatestRef env gitInfo.client []).1 = .ok ref) (hhist : ref.Ref ≠ "")
    (hrun : CreateCommitByElement env fuel gitInfo date commitMsg elementList []
      = (some (.ok resp), trace)) :
    ∃ commitResp : CommitResponse,
      (GetCommit env gitInfo.client ref.Object.Sha [refRequest gitInfo.client]).1
        = .ok commitResp ∧
      (commitPayloads trace).map (fun c => c.Parents) = [[commitResp.Sha]] ∧
      (treePayloads trace).map (fun t => t.Base_tree) = [some commitResp.Tree.Sha] := by
  obtain ⟨commitResp, payloads, blobResps, treeResp, hget, -, -, -, -, -, htr⟩ :=
    CreateCommitByElement_history env fuel gitInfo date commitMsg elementList [] trace ref resp
      href hhist hrun
  obtain ⟨hb1, hb2, -, -, -, -⟩ := payloads_of_blobRequests gitInfo.client payloads
  refine ⟨commitResp, by simpa using hget, ?_, ?_⟩
  · rw [htr]
    simp only [commitPayloads_append, hb2]
    simp [commitPayloads, refRequest, commitReadRequest, treeRequest, commitRequest,
      updRefRequest]
  · rw [htr]
    simp only [treePayloads_append, hb1]
    simp [treePayloads, refRequest, commitReadRequest, treeRequest, commitRequest,
      updRefRequest]

/-- C1: for every element list (so for every non-empty one), when
`CreateCommitByElement` runs against a branch with existing history (the reference
read returns a reference with a non-empty ref name), every remote call succeeds and
the commit read at the reference's object SHA returns the commit it was asked for
(the remote store names a commit by its SHA), the create-commit payload's parent list
has exactly one entry and that entry equals the object SHA of the reference read at
the start of the call, and the create-tree payload's `base_tree` equals the tree SHA
of the commit read at that tip. -/
theorem CreateCommitByElement_history_parent (env : Env) (fuel : Nat) (gitInfo : GitInfo)
    (date commitMsg : String) (elementList : List CommitElement) (trace : Trace)
    (ref : RefResponse) (resp : CreateCommitResponse)
    (href : (GetLatestRef env gitInfo.client []).1 = .ok ref) (hhist : ref.Ref ≠ "")
    (hstore : ∀ c, (GetCommit env gitInfo.client ref.Object.Sha [refRequest gitInfo.client]).1
      = .ok c → c.Sha = ref.Object.Sha)
    (hrun : CreateCommitByElement env fuel gitInfo date commitMsg elementList []
      = (some (.ok resp), trace)) :
    ∃ commitResp : CommitResponse,
      (GetCommit env gitInfo.client ref.Object.Sha [refRequest gitInfo.client]).1
        = .ok commitResp ∧
      (commitPayloads trace).map (fun c => c.Parents) = [[ref.Object.Sha]] ∧
      (treePayloads trace).map (fun t => t.Base_tree) = [some commitResp.Tree.Sha] := by
  obtain ⟨commitResp, hget, hparents, htree⟩ :=
    CreateCommitByElement_history_links env fuel gitInfo date commitMsg elementList trace ref
      resp href hhist hrun
  refine ⟨commitResp, hget, ?_, htree⟩
  rw [hparents, hstore commitResp hget]

/-- Witness of C1, on the scripted branch with history: the reference read gives the
object SHA `c0`, the commit read at `c0` returns the commit `c0` with the tree `t0`,
and the new commit has the parent list `[c0]` on the base tree `t0`. -/
theorem CreateCommitByElement_history_parent_witness :
    ∃ commitResp : CommitResponse,
      (GetCommit (scriptedEnv historyScript) sampleInfo.client "c0"
        [refRequest sampleInfo.client]).1 = .ok commitResp ∧
      (commitPayloads (CreateCommitByElement (scriptedEnv historyScript) 8 sampleInfo "d" "m"
        sampleElements []).2).map (fun c => c.Parents) = [["c0"]] ∧
      (treePayloads (CreateCommitByElement (scriptedEnv historyScript) 8 sampleInfo "d" "m"
        sampleElements []).2).map (fun t => t.Base_tree) = [some commitResp.Tree.Sha] :=
  CreateCommitByElement_history_parent (scriptedEnv historyScript) 8 sampleInfo "d" "m"
    sampleElements _ { Ref := "refs/heads/main", Object := { Sha := "c0" } } { Sha := "c1" }
    (by decide) (by decide)
    (fun c hc => by
      have hget : (GetCommit (scriptedEnv historyScript) sampleInfo.client "c0"
          [refRequest sampleInfo.client]).1 = .ok { Sha := "c0", Tree := { Sha := "t0" } } := by
        decide
      rw [hget] at hc
      cases hc
      rfl)
    (by decide)

/-! ### C2: the first commit of an empty repository -/

/-- C2: for every element list, when `CreateCommitByElement` runs against an unborn
branch (the reference read reports the empty repository by returning the empty
reference) and every call succeeds, the one create-tree request has no `base_tree`,
the one create-commit request has an empty parent list, create-reference is called
exactly once with the SHA that create-commit returned, and update-reference is never
called. -/
theorem CreateCommitByElement_bootstrap (env : Env) (fuel : Nat) (gitInfo : GitInfo)
    (date commitMsg : String) (elementList : List CommitElement) (trace : Trace)
    (ref : RefResponse) (resp : CreateCommitResponse)
    (href : (GetLatestRef env gitInfo.client []).1 = .ok ref) (hempty : ref.Ref = "")
    (hrun : CreateCommitByElement env fuel gitInfo date commitMsg elementList []
      = (some (.ok resp), trace)) :
    ∃ (before : Trace) (commitData : CommitData),
      (CreateCommit env gitInfo.client commitData before).1 = .ok resp ∧
      (treePayloads trace).map (fun t => t.Base_tree) = [none] ∧
      commitPayloads trace = [commitData] ∧ commitData.Parents = [] ∧
      (createRefPayloads trace).map (fun r => r.Sha) = [resp.Sha] ∧
      updRefPayloads trace = [] := by
  obtain ⟨payloads, blobResps, treeResp, -, -, -, -, hcommit, htr⟩ :=
    CreateCommitByElement_empty env fuel gitInfo date commitMsg elementList [] trace ref resp
      href hempty hrun
  obtain ⟨hb1, hb2, hb3, hb4, -, -⟩ := payloads_of_blobRequests gitInfo.client payloads
  obtain ⟨hr1, hr2, hr3, hr4, -, -⟩ := payloads_of_GetLatestRef env gitInfo.client
  refine ⟨_, _, hcommit, ?_, ?_, rfl, ?_, ?_⟩
  · rw [htr]
    simp only [treePayloads_append, hb1, hr1]
    simp [treePayloads, treeRequest, commitRequest, createRefRequest]
  · rw [htr]
    simp only [commitPayloads_append, hb2, hr2]
    simp [commitPayloads, treeRequest, commitRequest, createRefRequest]
  · rw [htr]
    simp only [createRefPayloads_append, hb3, hr3]
    simp [createRefPayloads, treeRequest, commitRequest, createRefRequest]
  · rw [htr]
    simp only [updRefPayloads_append, hb4, hr4]
    simp [updRefPayloads, treeRequest, commitRequest, createRefRequest]

/-- Witness of C2, on the scripted empty repository. -/
theorem CreateCommitByElement_bootstrap_witness :
    ∃ (before : Trace) (commitData : CommitData),
      (CreateCommit (scriptedEnv emptyScript) sampleInfo.client commitData before).1
        = .ok { Sha := "c1" } ∧
      (treePayloads (CreateCommitByElement (scriptedEnv emptyScript) 8 sampleInfo "d" "m"
        sampleElements []).2).map (fun t => t.Base_tree) = [none] ∧
      commitPayloads (CreateCommitByElement (scriptedEnv emptyScript) 8 sampleInfo "d" "m"
        sampleElements []).2 = [commitData] ∧ commitData.Parents = [] ∧
      (createRefPayloads (CreateCommitByElement (scriptedEnv emptyScript) 8 sampleInfo "d" "m"
        sampleElements []).2).map (fun r => r.Sha) = ["c1"] ∧
      updRefPayloads (CreateCommitByElement (scriptedEnv emptyScript) 8 sampleInfo "d" "m"
        sampleElements []).2 = [] :=
  CreateCommitByElement_bootstrap (scriptedEnv emptyScript) 8 sampleInfo "d" "m"
    sampleElements _ {} { Sha := "c1" } (by decide) (by decide) (by decide)

/-! ### C3: the calls of a successful run on a branch with history -/

/-- C3: for every element list (so for every list built by
`MakeCommitElementByFileData`), when `CreateCommitByElement` runs against a branch
with history and every call succeeds, the requests issued after the two reads are, in
this order: one create-blob request per element, in list order; one create-tree request
whose entries are the tuples (path of element i, `100644`, `blob`, SHA returned by the
create-blob call of element i), in list order; one create-commit request whose tree is
the SHA returned by create-tree and whose message is the given one; one
update-reference request with the SHA returned by create-commit and `force = false`.
The value returned is the response of create-commit. -/
theorem CreateCommitByElement_incremental_calls (env : Env) (fuel : Nat) (gitInfo : GitInfo)
    (date commitMsg : String) (elementList : List CommitElement) (trace : Trace)
    (ref : RefResponse) (resp : CreateCommitResponse)
    (href : (GetLatestRef env gitInfo.client []).1 = .ok ref) (hhist : ref.Ref ≠ "")
    (hrun : CreateCommitByElement env fuel gitInfo date commitMsg elementList []
      = (some (.ok resp), trace)) :
    ∃ (payloads : List (Option BlobData)) (blobResps : List CreateBlobResponse)
      (treeResp : CreateTreeResponse) (baseTree : Option String) (parents : List String),
      payloads.length = elementList.length ∧ blobResps.length = elementList.length ∧
      (∀ i e, elementList[i]? = some e → ∃ p r, payloads[i]? = some p ∧ blobResps[i]? = some r ∧
        getBlobDataByElement env fuel e = some (.ok p) ∧
        (CreateBlob env gitInfo.client p
          ([refRequest gitInfo.client, commitReadRequest gitInfo.client ref.Object.Sha] ++
            (payloads.take i).map (blobRequest gitInfo.client))).1 = .ok r) ∧
      (CreateTree env gitInfo.client
        { Base_tree := baseTree, Tree := List.zipWith entryOf elementList blobResps }
        ([refRequest gitInfo.client, commitReadRequest gitInfo.client ref.Object.Sha] ++
          payloads.map (blobRequest gitInfo.client))).1 = .ok treeResp ∧
      (CreateCommit env gitInfo.client
        { Message := commitMsg,
          Author := { Name := gitInfo.author_name, Email := gitInfo.author_email, Date := date },
          Parents := parents,
          Tree := treeResp.SHA }
        ([refRequest gitInfo.client, commitReadRequest gitInfo.client ref.Object.Sha] ++
          payloads.map (blobRequest gitInfo.client) ++
          [treeRequest gitInfo.client
            { Base_tree := baseTree, Tree := List.zipWith entryOf elementList blobResps }])).1
        = .ok resp ∧
      writes trace =
        payloads.map (blobRequest gitInfo.client) ++
        [treeRequest gitInfo.client
            { Base_tree := baseTree, Tree := List.zipWith entryOf elementList blobResps },
          commitRequest gitInfo.client
            { Message := commitMsg,
              Author := { Name := gitInfo.author_name, Email := gitInfo.author_email,
                          Date := date },
              Parents := parents,
              Tree := treeResp.SHA },
          updRefRequest gitInfo.client { Sha := resp.Sha, Force := false }] ∧
      trace = [refRequest gitInfo.client, commitReadRequest gitInfo.client ref.Object.Sha] ++
        writes trace := by
  obtain ⟨commitResp, payloads, blobResps, treeResp, -, hlp, hlr, hcalls, htree, hcommit, htr⟩ :=
    CreateCommitByElement_history env fuel gitInfo date commitMsg elementList [] trace ref resp
      href hhist hrun
  obtain ⟨-, -, -, -, -, hw⟩ := payloads_of_blobRequests gitInfo.client payloads
  simp only [List.nil_append] at hcalls htree hcommit htr
  have hwr : writes trace =
      payloads.map (blobRequest gitInfo.client) ++
        [treeRequest gitInfo.client
            { Base_tree := some commitResp.Tree.Sha,
              Tree := List.zipWith entryOf elementList blobResps },
          commitRequest gitInfo.client
            { Message := commitMsg,
              Author := { Name := gitInfo.author_name, Email := gitInfo.author_email,
                          Date := date },
              Parents := [commitResp.Sha],
              Tree := treeResp.SHA },
          updRefRequest gitInfo.client { Sha := resp.Sha, Force := false }] := by
    rw [htr]
    simp only [writes, List.filter_append] at hw ⊢
    rw [hw]
    simp [refRequest, commitReadRequest, treeRequest, commitRequest, updRefRequest]
  refine ⟨payloads, blobResps, treeResp, some commitResp.Tree.Sha, [commitResp.Sha], hlp, hlr,
    hcalls, htree, hcommit, hwr, ?_⟩
  rw [hwr, ← List.append_assoc]
  exact htr

/-- Witness of C3, on the scripted branch with history and the two sample elements:
the write calls are the two create-blob requests, the create-tree request with the
entries `test2.txt` and `test3.png`, the create-commit request and the update. -/
theorem CreateCommitByElement_incremental_calls_witness :
    ∃ (payloads : List (Option BlobData)) (blobResps : List CreateBlobResponse)
      (treeResp : CreateTreeResponse) (baseTree : Option String) (parents : List String),
      payloads.length = sampleElements.length ∧ blobResps.length = sampleElements.length ∧
      (∀ i e, sampleElements[i]? = some e → ∃ p r, payloads[i]? = some p ∧ blobResps[i]? = some r ∧
        getBlobDataByElement (scriptedEnv historyScript) 8 e = some (.ok p) ∧
        (CreateBlob (scriptedEnv historyScript) sampleInfo.client p
          ([refRequest sampleInfo.client, commitReadRequest sampleInfo.client "c0"] ++
            (payloads.take i).map (blobRequest sampleInfo.client))).1 = .ok r) ∧
      (CreateTree (scriptedEnv historyScript) sampleInfo.client
        { Base_tree := baseTree, Tree := List.zipWith entryOf sampleElements blobResps }
        ([refRequest sampleInfo.client, commitReadRequest sampleInfo.client "c0"] ++
          payloads.map (blobRequest sampleInfo.client))).1 = .ok treeResp ∧
      (CreateCommit (scriptedEnv historyScript) sampleInfo.client
        { Message := "m",
          Author := { Name := sampleInfo.author_name, Email := sampleInfo.author_email,
                      Date := "d" },
          Parents := parents,
          Tree := treeResp.SHA }
        ([refRequest sampleInfo.client, commitReadRequest sampleInfo.client "c0"] ++
          payloads.map (blobRequest sampleInfo.client) ++
          [treeRequest sampleInfo.client
            { Base_tree := baseTree, Tree := List.zipWith entryOf sampleElements blobResps }])).1
        = .ok { Sha := "c1" } ∧
      writes (CreateCommitByElement (scriptedEnv historyScript) 8 sampleInfo "d" "m"
          sampleElements []).2 =
        payloads.map (blobRequest sampleInfo.client) ++
        [treeRequest sampleInfo.client
            { Base_tree := baseTree, Tree := List.zipWith entryOf sampleElements blobResps },
          commitRequest sampleInfo.client
            { Message := "m",
              Author := { Name := sampleInfo.author_name, Email := sampleInfo.author_email,
                          Date := "d" },
              Parents := parents,
              Tree := treeResp.SHA },
          updRefRequest sampleInfo.client { Sha := "c1", Force := false }] ∧
      (CreateCommitByElement (scriptedEnv historyScript) 8 sampleInfo "d" "m" sampleElements []).2 =
        [refRequest sampleInfo.client, commitReadRequest sampleInfo.client "c0"] ++
        writes (CreateCommitByElement (scriptedEnv historyScript) 8 sampleInfo "d" "m"
          sampleElements []).2 :=
  CreateCommitByElement_incremental_calls (scriptedEnv historyScript) 8 sampleInfo "d" "m"
    sampleElements _ { Ref := "refs/heads/main", Object := { Sha := "c0" } } { Sha := "c1" }
    (by decide) (by decide) (by decide)

/-! ### C4: an element whose processing fails -/

theorem payloads_of_commitRead (git : GitClient) (commitId : String) :
    treePayloads [commitReadRequest git commitId] = [] ∧
      commitPayloads [commitReadRequest git commitId] = [] ∧
      createRefPayloads [commitReadRequest git commitId] = [] ∧
      updRefPayloads [commitReadRequest git commitId] = [] ∧
      blobPayloads [commitReadRequest git commitId] = [] := by
  simp [treePayloads, commitPayloads, createRefPayloads, updRefPayloads, blobPayloads,
    commitReadRequest]

theorem latestCommit_trace (env : Env) (git : GitClient) (isEmptyRepo : Bool) (ref : RefResponse)
    (tr : Trace) :
    (latestCommit env git isEmptyRepo ref tr).2 = tr ∨
      (latestCommit env git isEmptyRepo ref tr).2 = tr ++ [commitReadRequest git ref.Object.Sha] := by
  cases isEmptyRepo
  · right
    have ht := GetCommit_trace env git ref.Object.Sha tr
    rcases hg : GetCommit env git ref.Object.Sha tr with ⟨r, tr2⟩
    rw [hg] at ht
    rcases r with err | c <;> simpa [latestCommit, hg] using ht
  · left
    simp [latestCommit]

/-- The read loop never returns on a file none of whose `Read` calls gives `io.EOF`,
however many calls it is allowed. -/
theorem readLoop_never (file : File) (h : ∀ k, (file k).err ≠ some ReadError.eof) :
    ∀ (fuel k : Nat) (data : Bytes), readLoop file fuel k data = none := by
  intro fuel
  induction fuel with
  | zero => intro k data; rfl
  | succ fuel ih =>
    intro k data
    simp only [readLoop, h k, if_false]
    exact ih _ _

/-- The read loop returns once it is allowed enough `Read` calls: when the call
`k + m` is the first from `k` on to give `io.EOF`, more than `m` calls give the bytes
of the calls before it. -/
theorem readLoop_of_eof (file : File) : ∀ (m k fuel : Nat) (data : Bytes),
    (∀ j, j < m → (file (k + j)).err ≠ some ReadError.eof) →
    (file (k + m)).err = some ReadError.eof → m < fuel →
    readLoop file fuel k data
      = some (data ++ ((List.range m).map (fun j => (file (k + j)).chunk)).flatten) := by
  intro m
  induction m with
  | zero =>
    intro k fuel data _ heof hfuel
    obtain ⟨f, rfl⟩ : ∃ f, fuel = f + 1 := ⟨fuel - 1, by omega⟩
    simp only [Nat.add_zero] at heof
    simp [readLoop, heof]
  | succ m ih =>
    intro k fuel data hno heof hfuel
    obtain ⟨f, rfl⟩ : ∃ f, fuel = f + 1 := ⟨fuel - 1, by omega⟩
    have h0 : (file k).err ≠ some ReadError.eof := by
      have := hno 0 (by omega)
      simpa using this
    have hno' : ∀ j, j < m → (file (k + 1 + j)).err ≠ some ReadError.eof := by
      intro j hj
      have := hno (j + 1) (by omega)
      rwa [show k + (j + 1) = k + 1 + j by omega] at this
    have heof' : (file (k + 1 + m)).err = some ReadError.eof := by
      rwa [show k + (m + 1) = k + 1 + m by omega] at heof
    simp only [readLoop, h0, if_false]
    rw [ih (k + 1) f _ hno' heof' (by omega)]
    congr 1
    rw [List.range_succ_eq_map, List.map_cons, List.flatten_cons, List.map_map,
      List.append_assoc]
    congr 3
    apply List.map_congr_left
    intro j _
    simp only [Function.comp, Nat.succ_eq_add_one]
    rw [show k + 1 + j = k + (j + 1) by omega]

theorem createBlobs_append (env : Env) (fuel : Nat) (git : GitClient) :
    ∀ (xs ys : List CommitElement) (acc : List TreeDataElement) (tr : Trace),
      createBlobs env fuel git (xs ++ ys) acc tr =
        match createBlobs env fuel git xs acc tr with
        | (none, tr1) => (none, tr1)
        | (some (.error err), tr1) => (some (.error err), tr1)
        | (some (.ok acc1), tr1) => createBlobs env fuel git ys acc1 tr1 := by
  intro xs
  induction xs with
  | nil => intro ys acc tr; simp [createBlobs]
  | cons x xs ih =>
    intro ys acc tr
    rcases hs : createBlobOf env fuel git x tr with ⟨r, tr2⟩
    rcases r with _ | (err | t)
    · simp [createBlobs, hs]
    · simp [createBlobs, hs]
    · simp only [List.cons_append, createBlobs, hs]
      exact ih ys _ _

theorem elementList_split (elementList : List CommitElement) (i : Nat) (e : CommitElement)
    (he : elementList[i]? = some e) :
    elementList = elementList.take i ++ e :: elementList.drop (i + 1) := by
  have hi : i < elementList.length := by
    rcases Nat.lt_or_ge i elementList.length with h | h
    · exact h
    · rw [List.getElem?_eq_none h] at he; cases he
  have hget : elementList[i] = e := by
    rw [List.getElem?_eq_getElem hi] at he
    exact Option.some.inj he
  rw [← hget, ← List.drop_eq_getElem_cons hi, List.take_append_drop]

/-- The blob loop stops at the element whose processing returns an error. -/
theorem createBlobs_fail_at (env : Env) (fuel : Nat) (git : GitClient)
    (elementList : List CommitElement) (i : Nat) (e : CommitElement)
    (acc entries : List TreeDataElement) (tr tr3 : Trace)
    (he : elementList[i]? = some e)
    (hpre : createBlobs env fuel git (elementList.take i) acc tr = (some (.ok entries), tr3))
    (err : GoError) (hfail : (createBlobOf env fuel git e tr3).1 = some (.error err)) :
    createBlobs env fuel git elementList acc tr
      = (some (.error err), (createBlobOf env fuel git e tr3).2) := by
  rw [elementList_split elementList i e he, createBlobs_append, hpre]
  rcases hs : createBlobOf env fuel git e tr3 with ⟨r, tr4⟩
  rw [hs] at hfail
  simp only at hfail
  subst hfail
  simp [createBlobs, hs]

/-- The blob loop does not return when the blob data of an element does not. -/
theorem createBlobs_hang_at (env : Env) (fuel : Nat) (git : GitClient)
    (elementList : List CommitElement) (i : Nat) (e : CommitElement)
    (acc entries : List TreeDataElement) (tr tr3 : Trace)
    (he : elementList[i]? = some e)
    (hpre : createBlobs env fuel git (elementList.take i) acc tr = (some (.ok entries), tr3))
    (hhang : getBlobDataByElement env fuel e = none) :
    createBlobs env fuel git elementList acc tr = (none, tr3) := by
  rw [elementList_split elementList i e he, createBlobs_append, hpre]
  simp [createBlobs, createBlobOf, hhang]

/-- When the reads at the start of `CreateCommitByElement` succeeded, the elements
before `i` were processed with success, and the processing of element `i` returns an
error (`getBlobDataByElement` returns one, or the create-blob call does), then
`CreateCommitByElement` returns an error, the create-blob calls of the run are those
of the elements up to `i` only, and no create-tree, create-commit, create-reference
or update-reference call is issued. -/
theorem CreateCommitByElement_first_failure (env : Env) (fuel : Nat) (gitInfo : GitInfo)
    (date commitMsg : String) (elementList : List CommitElement) (i : Nat) (e : CommitElement)
    (ref : RefResponse) (tr1 tr2 tr3 : Trace) (commitResp : CommitResponse)
    (entries : List TreeDataElement)
    (href : GetLatestRef env gitInfo.client [] = (.ok ref, tr1))
    (htip : latestCommit env gitInfo.client (decide (ref.Ref = "")) ref tr1 = (.ok commitResp, tr2))
    (he : elementList[i]? = some e)
    (hpre : createBlobs env fuel gitInfo.client (elementList.take i) [] tr2
      = (some (.ok entries), tr3))
    (hfail : (∃ e0, getBlobDataByElement env fuel e = some (.error e0)) ∨
      (∃ p e0, getBlobDataByElement env fuel e = some (.ok p) ∧
        (CreateBlob env gitInfo.client p tr3).1 = .error e0)) :
    (∃ err, (CreateCommitByElement env fuel gitInfo date commitMsg elementList []).1
      = some (.error err)) ∧
    (∃ (payloads : List (Option BlobData)) (last : List (Option BlobData)),
      payloads.length = i ∧ last.length ≤ 1 ∧
      (∀ p ∈ last, getBlobDataByElement env fuel e = some (.ok p)) ∧
      blobPayloads (CreateCommitByElement env fuel gitInfo date commitMsg elementList []).2
        = payloads ++ last) ∧
    treePayloads (CreateCommitByElement env fuel gitInfo date commitMsg elementList []).2 = [] ∧
    commitPayloads (CreateCommitByElement env fuel gitInfo date commitMsg elementList []).2 = [] ∧
    createRefPayloads (CreateCommitByElement env fuel gitInfo date commitMsg elementList []).2
      = [] ∧
    updRefPayloads (CreateCommitByElement env fuel gitInfo date commitMsg elementList []).2
      = [] := by
  -- the failing step, and what it adds to the trace
  obtain ⟨err, last, hstep, hlast, hlastp, htr4⟩ :
      ∃ (err : GoError) (last : List (Option BlobData)),
        (createBlobOf env fuel gitInfo.client e tr3).1 = some (.error err) ∧ last.length ≤ 1 ∧
        (∀ p ∈ last, getBlobDataByElement env fuel e = some (.ok p)) ∧
        (createBlobOf env fuel gitInfo.client e tr3).2
          = tr3 ++ last.map (blobRequest gitInfo.client) := by
    rcases hfail with ⟨e0, h0⟩ | ⟨p, e0, hp, hb⟩
    · exact ⟨"error occured when create blobData. " ++ e0, [], by simp [createBlobOf, h0],
        by simp, by simp, by simp [createBlobOf, h0]⟩
    · have ht := CreateBlob_trace env gitInfo.client p tr3
      rcases hc : CreateBlob env gitInfo.client p tr3 with ⟨r, tr4⟩
      rw [hc] at hb ht
      simp only at hb ht
      subst hb
      subst ht
      exact ⟨"error occured when create blob " ++ e0, [p], by simp [createBlobOf, hp, hc],
        by simp, by simp [hp], by simp [createBlobOf, hp, hc]⟩
  have hloop := createBlobs_fail_at env fuel gitInfo.client elementList i e [] entries tr2 tr3
    he hpre err hstep
  have hrun : CreateCommitByElement env fuel gitInfo date commitMsg elementList [] =
      (some (.error err), (createBlobOf env fuel gitInfo.client e tr3).2) := by
    simp only [CreateCommitByElement, href, htip, hloop]
  obtain ⟨payloads, resps, hlp, -, -, -, htr3⟩ :=
    createBlobs_ok env gitInfo.client fuel (elementList.take i) [] tr2 tr3 entries hpre
  have hi : i ≤ elementList.length := by
    rcases Nat.lt_or_ge i elementList.length with h | h
    · exact Nat.le_of_lt h
    · rw [List.getElem?_eq_none h] at he; cases he
  have hlen : payloads.length = i := by rw [hlp, List.length_take]; omega
  obtain ⟨hb1, hb2, hb3, hb4, hb5, -⟩ := payloads_of_blobRequests gitInfo.client payloads
  obtain ⟨hl1, hl2, hl3, hl4, hl5, -⟩ := payloads_of_blobRequests gitInfo.client last
  obtain ⟨hr1, hr2, hr3, hr4, hr5, -⟩ := payloads_of_GetLatestRef env gitInfo.client
  rw [href] at hr1 hr2 hr3 hr4 hr5
  simp only at hr1 hr2 hr3 hr4 hr5
  have htrace : (CreateCommitByElement env fuel gitInfo date commitMsg elementList []).2 =
      tr2 ++ payloads.map (blobRequest gitInfo.client) ++ last.map (blobRequest gitInfo.client) := by
    rw [hrun, htr4, htr3]
  have htip2 := latestCommit_trace env gitInfo.client (decide (ref.Ref = "")) ref tr1
  rw [htip] at htip2
  simp only at htip2
  obtain ⟨hc1, hc2, hc3, hc4, hc5⟩ := payloads_of_commitRead gitInfo.client ref.Object.Sha
  refine ⟨⟨err, by rw [hrun]⟩, ⟨payloads, last, hlen, hlast, hlastp, ?_⟩, ?_, ?_, ?_, ?_⟩
  · rw [htrace]
    rcases htip2 with h | h <;> rw [h] <;>
      simp only [blobPayloads_append, hb5, hl5, hr5, hc5, List.nil_append]
  · rw [htrace]
    rcases htip2 with h | h <;> rw [h] <;>
      simp only [treePayloads_append, hb1, hl1, hr1, hc1, List.nil_append]
  · rw [htrace]
    rcases htip2 with h | h <;> rw [h] <;>
      simp only [commitPayloads_append, hb2, hl2, hr2, hc2, List.nil_append]
  · rw [htrace]
    rcases htip2 with h | h <;> rw [h] <;>
      simp only [createRefPayloads_append, hb3, hl3, hr3, hc3, List.nil_append]
  · rw [htrace]
    rcases htip2 with h | h <;> rw [h] <;>
      simp only [updRefPayloads_append, hb4, hl4, hr4, hc4, List.nil_append]

/-- An instance of `CreateCommitByElement_first_failure`: on the scripted branch with
history whose second create-blob call fails, the run over the two sample elements
fails at index 1 after two create-blob calls and nothing else is written. -/
theorem CreateCommitByElement_first_failure_witness :
    (∃ err, (CreateCommitByElement (scriptedEnv brokenBlobScript) 8 sampleInfo "d" "m"
      sampleElements []).1 = some (.error err)) ∧
    (∃ (payloads : List (Option BlobData)) (last : List (Option BlobData)),
      payloads.length = 1 ∧ last.length ≤ 1 ∧
      (∀ p ∈ last, getBlobDataByElement (scriptedEnv brokenBlobScript) 8
        { pathInRepo := "test3.png", content := [byte 81, byte 85, byte 74, byte 68],
          encodingType := 1 } = some (.ok p)) ∧
      blobPayloads (CreateCommitByElement (scriptedEnv brokenBlobScript) 8 sampleInfo "d" "m"
        sampleElements []).2 = payloads ++ last) ∧
    treePayloads (CreateCommitByElement (scriptedEnv brokenBlobScript) 8 sampleInfo "d" "m"
      sampleElements []).2 = [] ∧
    commitPayloads (CreateCommitByElement (scriptedEnv brokenBlobScript) 8 sampleInfo "d" "m"
      sampleElements []).2 = [] ∧
    createRefPayloads (CreateCommitByElement (scriptedEnv brokenBlobScript) 8 sampleInfo "d" "m"
      sampleElements []).2 = [] ∧
    updRefPayloads (CreateCommitByElement (scriptedEnv brokenBlobScript) 8 sampleInfo "d" "m"
      sampleElements []).2 = [] :=
  CreateCommitByElement_first_failure (scriptedEnv brokenBlobScript) 8 sampleInfo "d" "m"
    sampleElements 1
    { pathInRepo := "test3.png", content := [byte 81, byte 85, byte 74, byte 68],
      encodingType := 1 }
    { Ref := "refs/heads/main", Object := { Sha := "c0" } }
    [refRequest sampleInfo.client]
    [refRequest sampleInfo.client, commitReadRequest sampleInfo.client "c0"]
    [refRequest sampleInfo.client, commitReadRequest sampleInfo.client "c0",
      blobRequest sampleInfo.client (some { Content := [byte 104, byte 105], Encoding := "utf8" })]
    { Sha := "c0", Tree := { Sha := "t0" } }
    [{ Path := "test2.txt", Mode := "100644", Type_ := "blob", Sha := "b1" }]
    (by decide) (by decide) (by decide) (by decide)
    (Or.inr ⟨some { Content := [byte 81, byte 85, byte 74, byte 68], Encoding := "base64" },
      "invalid character \x27B\x27 looking for beginning of value", by decide, by decide⟩)

/-- The blob data of an element with a local path: the file is opened and read by
the read loop. -/
theorem getBlobDataByElement_local (env : Env) (fuel : Nat) (e : CommitElement) (file : File)
    (hp : e.pathInLocal ≠ "") (ho : env.openFile e.pathInLocal = .ok file) :
    getBlobDataByElement env fuel e =
      (readLoop file fuel 0 []).map
        (fun data => .ok (some { Content := base64.EncodeToString data, Encoding := "base64" })) := by
  unfold getBlobDataByElement
  rw [if_pos hp, ho]
  rcases hr : readLoop file fuel 0 [] with _ | data <;> simp [hr]

/-- When the reads at the start of `CreateCommitByElement` succeeded, the elements
before `i` were processed with success, and the blob data of element `i` does not
return, `CreateCommitByElement` does not return, and it has issued the requests of
the elements before `i` only. -/
theorem CreateCommitByElement_hang_at (env : Env) (fuel : Nat) (gitInfo : GitInfo)
    (date commitMsg : String) (elementList : List CommitElement) (i : Nat) (e : CommitElement)
    (ref : RefResponse) (tr1 tr2 tr3 : Trace) (commitResp : CommitResponse)
    (entries : List TreeDataElement)
    (href : GetLatestRef env gitInfo.client [] = (.ok ref, tr1))
    (htip : latestCommit env gitInfo.client (decide (ref.Ref = "")) ref tr1 = (.ok commitResp, tr2))
    (he : elementList[i]? = some e)
    (hpre : createBlobs env fuel gitInfo.client (elementList.take i) [] tr2
      = (some (.ok entries), tr3))
    (hhang : getBlobDataByElement env fuel e = none) :
    CreateCommitByElement env fuel gitInfo date commitMsg elementList [] = (none, tr3) := by
  have hloop := createBlobs_hang_at env fuel gitInfo.client elementList i e [] entries tr2 tr3
    he hpre hhang
  simp only [CreateCommitByElement, href, htip, hloop]

/-- C4 fails on the code: the read loop of `getBlobDataByElement` is left at `io.EOF`
only, so an element whose file opens and then fails at every `Read` never gets its
blob data and the run never returns, where the claim says it returns an error. On
the scripted file system `MakeCommitElementListByLocalPath` builds the elements
`a.txt` and `link` for the root `repo_test`; `link` is a symbolic link to a
directory, every `Read` of it gives no byte and the error `is a directory`. The
element `a.txt` is processed with success, the blob data of `link` does not return
however many `Read` calls are allowed, and neither `CreateCommitByElement` nor
`CreateCommitByLocalDir` returns. -/
theorem CreateCommitByElement_read_error_never_returns :
    MakeCommitElementListByLocalPath walkOfLink '/' "repo_test" = .ok linkElements ∧
    (∀ k, directoryFile k
      = { chunk := [], err := some (ReadError.other "read repo_test/link: is a directory") }) ∧
    createBlobs (scriptedEnv historyScript) 2 sampleInfo.client (linkElements.take 1) []
        [refRequest sampleInfo.client, commitReadRequest sampleInfo.client "c0"]
      = (some (.ok [{ Path := "a.txt", Mode := "100644", Type_ := "blob", Sha := "b1" }]),
        [refRequest sampleInfo.client, commitReadRequest sampleInfo.client "c0",
          blobRequest sampleInfo.client
            (some { Content := base64.EncodeToString [byte 104, byte 105],
                    Encoding := "base64" })]) ∧
    (∀ fuel, getBlobDataByElement (scriptedEnv historyScript) fuel
      { pathInRepo := "link", pathInLocal := "repo_test/link" } = none) ∧
    (∀ fuel, (CreateCommitByElement (scriptedEnv historyScript) fuel sampleInfo "d" "m"
      linkElements []).1 = none) ∧
    (∀ fuel, (CreateCommitByLocalDir (scriptedEnv historyScript) fuel walkOfLink '/' sampleInfo
      "d" "m" "repo_test" []).1 = none) := by
  have hlink : ∀ fuel, getBlobDataByElement (scriptedEnv historyScript) fuel
      { pathInRepo := "link", pathInLocal := "repo_test/link" } = none := by
    intro fuel
    rw [getBlobDataByElement_local _ _ _ directoryFile (by decide) rfl,
      readLoop_never directoryFile (fun k => by simp [directoryFile])]
    rfl
  have htext : ∀ n, getBlobDataByElement (scriptedEnv historyScript) (n + 2)
      { pathInRepo := "a.txt", pathInLocal := "repo_test/a.txt" }
      = some (.ok (some { Content := base64.EncodeToString [byte 104, byte 105],
                          Encoding := "base64" })) := by
    intro n
    rw [getBlobDataByElement_local _ _ _ textFile (by decide) rfl,
      readLoop_of_eof textFile 1 0 (n + 2) [] (by decide) (by decide) (by omega)]
    rfl
  have hrun : ∀ fuel, (CreateCommitByElement (scriptedEnv historyScript) fuel sampleInfo "d" "m"
      linkElements []).1 = none := by
    intro fuel
    match fuel with
    | 0 => decide
    | 1 => decide
    | n + 2 =>
      have hpre : createBlobs (scriptedEnv historyScript) (n + 2) sampleInfo.client
          (linkElements.take 1) []
          [refRequest sampleInfo.client, commitReadRequest sampleInfo.client "c0"]
          = (some (.ok [{ Path := "a.txt", Mode := "100644", Type_ := "blob", Sha := "b1" }]),
            [refRequest sampleInfo.client, commitReadRequest sampleInfo.client "c0",
              blobRequest sampleInfo.client
                (some { Content := base64.EncodeToString [byte 104, byte 105],
                        Encoding := "base64" })]) := by
        have hb : CreateBlob (scriptedEnv historyScript) sampleInfo.client
            (some { Content := base64.EncodeToString [byte 104, byte 105], Encoding := "base64" })
            [refRequest sampleInfo.client, commitReadRequest sampleInfo.client "c0"]
            = (.ok { Sha := "b1" },
              [refRequest sampleInfo.client, commitReadRequest sampleInfo.client "c0",
                blobRequest sampleInfo.client
                  (some { Content := base64.EncodeToString [byte 104, byte 105],
                          Encoding := "base64" })]) := by
          decide
        show createBlobs _ _ _ [{ pathInRepo := "a.txt", pathInLocal := "repo_test/a.txt" }] _ _
          = _
        simp only [createBlobs, createBlobOf, htext n, hb]
        rfl
      rw [CreateCommitByElement_hang_at (scriptedEnv historyScript) (n + 2) sampleInfo "d" "m"
        linkElements 1 { pathInRepo := "link", pathInLocal := "repo_test/link" }
        { Ref := "refs/heads/main", Object := { Sha := "c0" } }
        [refRequest sampleInfo.client]
        [refRequest sampleInfo.client, commitReadRequest sampleInfo.client "c0"] _
        { Sha := "c0", Tree := { Sha := "t0" } } _ (by decide) (by decide) (by decide) hpre
        (hlink _)]
  refine ⟨by decide, fun k => rfl, by decide, hlink, hrun, ?_⟩
  intro fuel
  have hwalk : MakeCommitElementListByLocalPath walkOfLink '/' "repo_test" = .ok linkElements := by
    decide
  have h := hrun fuel
  rcases hc : CreateCommitByElement (scriptedEnv historyScript) fuel sampleInfo "d" "m"
    linkElements [] with ⟨r, tr⟩
  rw [hc] at h
  simp only at h
  subst h
  simp only [CreateCommitByLocalDir, hwalk, hc]

/-! ### C5: which contents `MakeCommitElementByFileData` accepts -/

theorem byte_val (n : Nat) (h : n < 256) : (byte n).val = n := by
  simp [byte, Nat.mod_eq_of_lt h]

theorem mem_byteRange (lo hi : Nat) (hhi : hi < 256) (c : Byte) :
    c ∈ byteRange lo hi ↔ lo ≤ c.val ∧ c.val ≤ hi := by
  simp only [byteRange, List.mem_map, List.mem_range]
  constructor
  · rintro ⟨i, hi', rfl⟩
    rw [byte_val _ (by omega)]
    omega
  · rintro ⟨h1, h2⟩
    refine ⟨c.val - lo, by omega, ?_⟩
    apply Fin.ext
    rw [byte_val _ (by omega)]
    omega

theorem mem_classChars (c : Byte) :
    c ∈ byteRange 65 90 ++ byteRange 97 122 ++ byteRange 48 57 ++ [byte 43, byte 47] ↔
      InAlphabet c := by
  simp only [List.mem_append, mem_byteRange _ _ (by decide : (90 : Nat) < 256),
    mem_byteRange _ _ (by decide : (122 : Nat) < 256),
    mem_byteRange _ _ (by decide : (57 : Nat) < 256), List.mem_cons, List.mem_singleton,
    List.not_mem_nil, or_false, InAlphabet, Fin.ext_iff, byte_val 43 (by decide),
    byte_val 47 (by decide)]
  tauto

theorem matches_class (l : List Byte) (x : Bytes) :
    x ∈ (l.foldr (fun c r => RegularExpression.char c + r) 0).matches' ↔ ∃ c ∈ l, x = [c] := by
  induction l with
  | nil => simp [Language.not_mem_zero]
  | cons a l ih =>
    simp only [List.foldr_cons, RegularExpression.matches'_add, RegularExpression.matches'_char,
      Language.mem_add, ih, List.mem_cons]
    constructor
    · rintro (h | ⟨c, hc, rfl⟩)
      · exact ⟨a, Or.inl rfl, h⟩
      · exact ⟨c, Or.inr hc, rfl⟩
    · rintro ⟨c, rfl | hc, rfl⟩
      · exact Or.inl rfl
      · exact Or.inr ⟨c, hc, rfl⟩

theorem matches_star_class (x : Bytes) :
    x ∈ (RegularExpression.star base64Class).matches' ↔ ∀ c ∈ x, InAlphabet c := by
  rw [RegularExpression.matches'_star, Language.mem_kstar]
  constructor
  · rintro ⟨L, rfl, hL⟩ c hc
    rw [List.mem_flatten] at hc
    obtain ⟨y, hy, hcy⟩ := hc
    have := hL y hy
    rw [base64Class, matches_class] at this
    obtain ⟨d, hd, rfl⟩ := this
    rw [List.mem_singleton] at hcy
    subst hcy
    exact (mem_classChars c).1 hd
  · intro h
    refine ⟨x.map (fun c => [c]), ?_, ?_⟩
    · induction x with
      | nil => rfl
      | cons a x ih =>
        simp only [List.map_cons, List.flatten_cons, List.singleton_append]
        rw [← ih (fun c hc => h c (List.mem_cons_of_mem _ hc))]
    · intro y hy
      rw [List.mem_map] at hy
      obtain ⟨c, hc, rfl⟩ := hy
      rw [base64Class, matches_class]
      exact ⟨c, (mem_classChars c).2 (h c hc), rfl⟩

/-- What `base64Rgx` matches: alphabet characters followed by at most two `=`. -/
theorem base64Rgx_rmatch_iff (s : Bytes) :
    base64Rgx.rmatch s = true ↔
      ∃ a p, s = a ++ p ∧ (∀ c ∈ a, InAlphabet c) ∧
        (p = [] ∨ p = [base64.padChar] ∨ p = [base64.padChar, base64.padChar]) := by
  rw [RegularExpression.rmatch_iff_matches', base64Rgx, RegularExpression.matches'_mul,
    Language.mem_mul]
  constructor
  · rintro ⟨a, ha, p, hp, rfl⟩
    refine ⟨a, p, rfl, (matches_star_class a).1 ha, ?_⟩
    simp only [RegularExpression.matches'_add, RegularExpression.matches'_mul,
      RegularExpression.matches'_epsilon, RegularExpression.matches'_char, Language.mem_add,
      Language.mem_one, Language.mem_mul] at hp
    rcases hp with (h | h) | ⟨u, hu, v, hv, rfl⟩
    · exact Or.inl h
    · exact Or.inr (Or.inl h)
    · cases hu; cases hv
      exact Or.inr (Or.inr rfl)
  · rintro ⟨a, p, rfl, ha, hp⟩
    refine ⟨a, (matches_star_class a).2 ha, p, ?_, rfl⟩
    simp only [RegularExpression.matches'_add, RegularExpression.matches'_mul,
      RegularExpression.matches'_epsilon, RegularExpression.matches'_char, Language.mem_add,
      Language.mem_one, Language.mem_mul]
    rcases hp with h | h | h
    · exact Or.inl (Or.inl h)
    · exact Or.inl (Or.inr h)
    · exact Or.inr ⟨[base64.padChar], rfl, [base64.padChar], rfl, h.symm⟩

theorem wellFormed_of_parts : ∀ (a p : Bytes), (∀ c ∈ a, InAlphabet c) →
    (p = [] ∨ p = [base64.padChar] ∨ p = [base64.padChar, base64.padChar]) →
    (a ++ p).length % 4 = 0 → WellFormedBase64 (a ++ p)
  | [], p, _, hp, hl => by
    rcases hp with rfl | rfl | rfl
    · exact WellFormedBase64.done
    · simp at hl
    · simp at hl
  | [_], p, _, hp, hl => by
    rcases hp with rfl | rfl | rfl <;> simp at hl
  | [c0, c1], p, ha, hp, hl => by
    rcases hp with rfl | rfl | rfl
    · simp at hl
    · simp at hl
    · exact WellFormedBase64.pad2 c0 c1 (ha c0 (by simp)) (ha c1 (by simp))
  | [c0, c1, c2], p, ha, hp, hl => by
    rcases hp with rfl | rfl | rfl
    · simp at hl
    · exact WellFormedBase64.pad1 c0 c1 c2 (ha c0 (by simp)) (ha c1 (by simp)) (ha c2 (by simp))
    · simp only [List.cons_append, List.nil_append, List.length_cons, List.length_nil] at hl
      omega
  | c0 :: c1 :: c2 :: c3 :: rest, p, ha, hp, hl => by
    refine WellFormedBase64.group c0 c1 c2 c3 (rest ++ p) (ha c0 (by simp)) (ha c1 (by simp))
      (ha c2 (by simp)) (ha c3 (by simp)) ?_
    refine wellFormed_of_parts rest p (fun c hc => ha c (by simp [hc])) hp ?_
    simp only [List.cons_append, List.length_cons] at hl
    omega

theorem parts_of_wellFormed (s : Bytes) (h : WellFormedBase64 s) :
    s.length % 4 = 0 ∧ ∃ a p, s = a ++ p ∧ (∀ c ∈ a, InAlphabet c) ∧
      (p = [] ∨ p = [base64.padChar] ∨ p = [base64.padChar, base64.padChar]) := by
  induction h with
  | done => exact ⟨rfl, [], [], rfl, by simp, Or.inl rfl⟩
  | group c0 c1 c2 c3 rest h0 h1 h2 h3 _ ih =>
    obtain ⟨hl, a, p, rfl, ha, hp⟩ := ih
    refine ⟨by simp only [List.length_cons]; omega, c0 :: c1 :: c2 :: c3 :: a, p, rfl, ?_, hp⟩
    intro c hc
    simp only [List.mem_cons] at hc
    rcases hc with rfl | rfl | rfl | rfl | hc
    · exact h0
    · exact h1
    · exact h2
    · exact h3
    · exact ha c hc
  | pad1 c0 c1 c2 h0 h1 h2 =>
    refine ⟨by simp, [c0, c1, c2], [base64.padChar], rfl, ?_, Or.inr (Or.inl rfl)⟩
    intro c hc
    simp only [List.mem_cons, List.mem_singleton, List.not_mem_nil, or_false] at hc
    rcases hc with rfl | rfl | rfl
    · exact h0
    · exact h1
    · exact h2
  | pad2 c0 c1 h0 h1 =>
    refine ⟨by simp, [c0, c1], [base64.padChar, base64.padChar], rfl, ?_, Or.inr (Or.inr rfl)⟩
    intro c hc
    simp only [List.mem_cons, List.mem_singleton, List.not_mem_nil, or_false] at hc
    rcases hc with rfl | rfl
    · exact h0
    · exact h1

/-- The length test and the regular expression of `isBase64` together accept exactly
the well-formed padded base64 texts. -/
theorem length_and_rgx_iff (s : Bytes) :
    (s.length % 4 = 0 ∧ base64Rgx.rmatch s = true) ↔ WellFormedBase64 s := by
  constructor
  · rintro ⟨hl, hr⟩
    obtain ⟨a, p, rfl, ha, hp⟩ := (base64Rgx_rmatch_iff s).1 hr
    exact wellFormed_of_parts a p ha hp hl
  · intro h
    obtain ⟨hl, hparts⟩ := parts_of_wellFormed s h
    exact ⟨hl, (base64Rgx_rmatch_iff s).2 hparts⟩

theorem isBase64_iff (s : Bytes) :
    isBase64 s = true ↔
      WellFormedBase64 s ∧ ∃ d, base64.DecodeString s = some d ∧ utf8.Valid d = true := by
  rw [← length_and_rgx_iff]
  unfold isBase64
  by_cases hl : s.length % 4 = 0
  · by_cases hr : base64Rgx.rmatch s = true
    · rcases hd : base64.DecodeString s with _ | d
      · simp [hl, hr]
      · simp [hl, hr]
    · simp [hl, hr]
  · simp [hl]

/-- C5: for every repository path, content and `encType`,
`MakeCommitElementByFileData` returns an element exactly when `encType` is
`FormattedBinary` and the content is well-formed padded standard base64 whose decoded
bytes are valid UTF-8, or `encType` is `Utf8` and the content is valid UTF-8; in every
other case it returns an error (and so no element). -/
theorem MakeCommitElementByFileData_accepts_iff (repoPath : String) (fileContent : Bytes)
    (encType : Int) :
    ((∃ element, MakeCommitElementByFileData repoPath fileContent encType = .ok element) ↔
      ((encType = FormattedBinary ∧ WellFormedBase64 fileContent ∧
          ∃ d, base64.DecodeString fileContent = some d ∧ utf8.Valid d = true) ∨
        (encType = Utf8 ∧ utf8.Valid fileContent = true))) ∧
    ((∃ err, MakeCommitElementByFileData repoPath fileContent encType = .error err) ↔
      ¬ ((encType = FormattedBinary ∧ WellFormedBase64 fileContent ∧
          ∃ d, base64.DecodeString fileContent = some d ∧ utf8.Valid d = true) ∨
        (encType = Utf8 ∧ utf8.Valid fileContent = true))) := by
  have h12 : FormattedBinary ≠ Utf8 := by decide
  rw [← isBase64_iff]
  unfold MakeCommitElementByFileData
  by_cases h1 : encType = FormattedBinary
  · subst h1
    by_cases hb : isBase64 fileContent = true
    · simp [hb, h12]
    · simp [hb, h12]
  · by_cases h2 : encType = Utf8
    · subst h2
      by_cases hv : utf8.Valid fileContent = true
      · simp [hv, h1]
      · simp [hv, h1]
    · simp [h1, h2]

/-- Well-formed text holds no line break, so the decoder skips nothing of it. -/
theorem filter_of_wellFormed (t : Bytes) (ht : WellFormedBase64 t) :
    t.filter (fun c => !(c = byte 10 || c = byte 13)) = t := by
  have hkeep : ∀ c, InAlphabet c ∨ c = base64.padChar → (!(c = byte 10 || c = byte 13)) = true := by
    intro c hc
    rcases hc with hc | rfl
    · unfold InAlphabet at hc
      simp only [Bool.not_eq_true', Bool.or_eq_false_iff, decide_eq_false_iff_not, Fin.ext_iff,
        byte_val 10 (by decide), byte_val 13 (by decide)]
      omega
    · decide
  rw [List.filter_eq_self]
  induction ht with
  | done => simp
  | group c0 c1 c2 c3 rest h0 h1 h2 h3 _ ih =>
    intro c hc
    simp only [List.mem_cons] at hc
    rcases hc with rfl | rfl | rfl | rfl | hc
    · exact hkeep _ (Or.inl h0)
    · exact hkeep _ (Or.inl h1)
    · exact hkeep _ (Or.inl h2)
    · exact hkeep _ (Or.inl h3)
    · exact ih c hc
  | pad1 c0 c1 c2 h0 h1 h2 =>
    intro c hc
    simp only [List.mem_cons, List.mem_singleton, List.not_mem_nil, or_false] at hc
    rcases hc with rfl | rfl | rfl | rfl
    · exact hkeep _ (Or.inl h0)
    · exact hkeep _ (Or.inl h1)
    · exact hkeep _ (Or.inl h2)
    · exact hkeep _ (Or.inr rfl)
  | pad2 c0 c1 h0 h1 =>
    intro c hc
    simp only [List.mem_cons, List.mem_singleton, List.not_mem_nil, or_false] at hc
    rcases hc with rfl | rfl | rfl | rfl
    · exact hkeep _ (Or.inl h0)
    · exact hkeep _ (Or.inl h1)
    · exact hkeep _ (Or.inr rfl)
    · exact hkeep _ (Or.inr rfl)

/-- Well-formed text is decoded: the decoder of `isBase64` never fails on it. -/
theorem DecodeString_of_wellFormed (s : Bytes) (h : WellFormedBase64 s) :
    ∃ d, base64.DecodeString s = some d := by
  have hmap : ∀ c, InAlphabet c → ∃ v, base64.decodeMap c = some v := by
    intro c hc
    unfold InAlphabet at hc
    unfold base64.decodeMap
    split_ifs <;> first | exact ⟨_, rfl⟩ | omega
  have hpad : base64.decodeMap base64.padChar = none := by decide
  unfold base64.DecodeString
  rw [filter_of_wellFormed s h]
  induction h with
  | done => exact ⟨[], rfl⟩
  | group c0 c1 c2 c3 rest h0 h1 h2 h3 _ ih =>
    obtain ⟨v0, e0⟩ := hmap c0 h0
    obtain ⟨v1, e1⟩ := hmap c1 h1
    obtain ⟨v2, e2⟩ := hmap c2 h2
    obtain ⟨v3, e3⟩ := hmap c3 h3
    obtain ⟨d, hd⟩ := ih
    simp [base64.decodeQuanta, e0, e1, e2, e3, hd]
  | pad1 c0 c1 c2 h0 h1 h2 =>
    obtain ⟨v0, e0⟩ := hmap c0 h0
    obtain ⟨v1, e1⟩ := hmap c1 h1
    obtain ⟨v2, e2⟩ := hmap c2 h2
    simp [base64.decodeQuanta, e0, e1, e2, hpad]
  | pad2 c0 c1 h0 h1 =>
    obtain ⟨v0, e0⟩ := hmap c0 h0
    obtain ⟨v1, e1⟩ := hmap c1 h1
    simp [base64.decodeQuanta, e0, e1, hpad]

/-! ### The base64 text of given bytes -/

theorem decodeMap_encodeChar : ∀ v, v < 64 → base64.decodeMap (base64.encodeChar v) = some v := by
  decide

theorem inAlphabet_encodeChar : ∀ v, v < 64 → InAlphabet (base64.encodeChar v) := by
  decide

theorem decodeMap_padChar : base64.decodeMap base64.padChar = none := by decide

theorem byte_of_val (a : Byte) (n : Nat) (h : n % 256 = a.val) : byte n = a := by
  apply Fin.ext
  simpa [byte] using h

/-- Decoding undoes encoding, quantum by quantum. -/
theorem decodeQuanta_EncodeToString : ∀ d : Bytes,
    base64.decodeQuanta (base64.EncodeToString d) = some d
  | [] => rfl
  | [a] => by
    have ha := a.isLt
    simp only [base64.EncodeToString, base64.decodeQuanta,
      decodeMap_encodeChar _ (Nat.mod_lt _ (by decide : 0 < 64)), decodeMap_padChar]
    simp only [and_self, if_true, Option.some.injEq, List.cons.injEq, and_true]
    exact byte_of_val a _ (by omega)
  | [a, b] => by
    have ha := a.isLt
    have hb := b.isLt
    simp only [base64.EncodeToString, base64.decodeQuanta,
      decodeMap_encodeChar _ (Nat.mod_lt _ (by decide : 0 < 64)), decodeMap_padChar]
    simp only [and_self, if_true, Option.some.injEq, List.cons.injEq, and_true]
    exact ⟨byte_of_val a _ (by omega), byte_of_val b _ (by omega)⟩
  | a :: b :: c :: rest => by
    have ha := a.isLt
    have hb := b.isLt
    have hc := c.isLt
    simp only [base64.EncodeToString, base64.decodeQuanta,
      decodeMap_encodeChar _ (Nat.mod_lt _ (by decide : 0 < 64)),
      decodeQuanta_EncodeToString rest]
    simp only [Option.some.injEq, List.cons.injEq, and_true]
    exact ⟨byte_of_val a _ (by omega), byte_of_val b _ (by omega), byte_of_val c _ (by omega)⟩

/-- The encoder writes well-formed padded base64. -/
theorem wellFormed_EncodeToString : ∀ d : Bytes, WellFormedBase64 (base64.EncodeToString d)
  | [] => WellFormedBase64.done
  | [_] =>
    WellFormedBase64.pad2 _ _ (inAlphabet_encodeChar _ (Nat.mod_lt _ (by decide)))
      (inAlphabet_encodeChar _ (Nat.mod_lt _ (by decide)))
  | [_, _] =>
    WellFormedBase64.pad1 _ _ _ (inAlphabet_encodeChar _ (Nat.mod_lt _ (by decide)))
      (inAlphabet_encodeChar _ (Nat.mod_lt _ (by decide)))
      (inAlphabet_encodeChar _ (Nat.mod_lt _ (by decide)))
  | _ :: _ :: _ :: rest =>
    WellFormedBase64.group _ _ _ _ _ (inAlphabet_encodeChar _ (Nat.mod_lt _ (by decide)))
      (inAlphabet_encodeChar _ (Nat.mod_lt _ (by decide)))
      (inAlphabet_encodeChar _ (Nat.mod_lt _ (by decide)))
      (inAlphabet_encodeChar _ (Nat.mod_lt _ (by decide))) (wellFormed_EncodeToString rest)

/-- The function `DecodeString` gives back the bytes that `EncodeToString` was given. -/
theorem DecodeString_EncodeToString (d : Bytes) :
    base64.DecodeString (base64.EncodeToString d) = some d := by
  unfold base64.DecodeString
  rw [filter_of_wellFormed _ (wellFormed_EncodeToString d), decodeQuanta_EncodeToString]

/-- The base64 text of some bytes is accepted as `FormattedBinary` content exactly
when the bytes themselves are valid UTF-8. -/
theorem MakeCommitElementByFileData_of_encoded (repoPath : String) (data : Bytes) :
    (∃ element, MakeCommitElementByFileData repoPath (base64.EncodeToString data) FormattedBinary
        = .ok element) ↔ utf8.Valid data = true := by
  have h12 : FormattedBinary ≠ Utf8 := by decide
  have hb : isBase64 (base64.EncodeToString data) = true ↔ utf8.Valid data = true := by
    rw [isBase64_iff, DecodeString_EncodeToString]
    constructor
    · rintro ⟨-, d, hd, hv⟩
      rw [Option.some.injEq] at hd
      subst hd
      exact hv
    · intro hv
      exact ⟨wellFormed_EncodeToString data, data, rfl, hv⟩
  unfold MakeCommitElementByFileData
  by_cases hv : utf8.Valid data = true
  · simp [hb.2 hv, hv, h12]
  · have hnb : ¬ isBase64 (base64.EncodeToString data) = true := fun h => hv (hb.1 h)
    simp [hnb, hv, h12]

/-! ### C6: base64 text of arbitrary bytes -/

/-- C6 fails on the code: the base64 text of the PNG signature, `iVBORw0KGgo=`, is
well-formed and decodes to the signature, yet `MakeCommitElementByFileData` rejects
it with `invalid base64 data.`, because the decoded bytes are not valid UTF-8. -/
theorem MakeCommitElementByFileData_rejects_png :
    base64.DecodeString (base64.EncodeToString pngSignature) = some pngSignature ∧
    utf8.Valid pngSignature = false ∧
    MakeCommitElementByFileData "test3.png" (base64.EncodeToString pngSignature) FormattedBinary
      = .error "invalid base64 data." := by
  decide

/-! ### C7: `CreateBlob` and the status code -/

/-- C7 fails on the code: `CreateBlob` never reads the status code. A response with
status 404 whose body is the JSON object `{"message":"Not Found"}` gives a blob
response with an empty SHA and no error; a response with status 502 whose body is not
JSON gives the decoder's error (`invalid character 'B' looking for beginning of
value`), not the raw body. -/
theorem CreateBlob_ignores_status :
    (CreateBlob (scriptedEnv rejectScript) sampleInfo.client
      (some { Content := [byte 104, byte 105], Encoding := "utf8" }) []).1
      = .ok { Sha := "", Url := "" } ∧
    (CreateBlob (scriptedEnv gatewayScript) sampleInfo.client
      (some { Content := [byte 104, byte 105], Encoding := "utf8" }) []).1
      = .error "invalid character \x27B\x27 looking for beginning of value" ∧
    (∀ (env : Env) (git : GitClient) (blob : Option BlobData) (tr : Trace) (status : Nat)
        (body : String),
      env.send tr (blobRequest git blob) = .ok ⟨status, .ok body⟩ →
      (CreateBlob env git blob tr).1 = env.unmarshalBlob body) := by
  refine ⟨by decide, by decide, ?_⟩
  intro env git blob tr status body h
  rcases hu : env.unmarshalBlob body with err | r <;>
    simp [CreateBlob, requestSend, ← blobRequest.eq_1, h, hu]

/-! ### C8: a rejected reference read -/

theorem IsEmptyRepository_eq (env : Env) (git : GitClient) (tr : Trace) :
    (IsEmptyRepository env git tr).1 =
      match env.send tr (probeRequest git) with
      | .error e => .error e
      | .ok presp =>
        match presp.Body with
        | .error e => .error e
        | .ok pbody =>
          if presp.StatusCode = 409 then .ok true
          else if presp.StatusCode = 200 then .ok false
          else .error pbody := by
  rcases hps : env.send tr (probeRequest git) with e | presp
  · simp [IsEmptyRepository, requestSend, ← probeRequest.eq_1, hps]
  · rcases hpb : presp.Body with e | pbody
    · simp [IsEmptyRepository, requestSend, ← probeRequest.eq_1, hps, hpb]
    · by_cases h409 : presp.StatusCode = 409
      · simp [IsEmptyRepository, requestSend, ← probeRequest.eq_1, hps, hpb, h409]
      · by_cases h200 : presp.StatusCode = 200
        · simp [IsEmptyRepository, requestSend, ← probeRequest.eq_1, hps, hpb, h409, h200]
        · simp [IsEmptyRepository, requestSend, ← probeRequest.eq_1, hps, hpb, h409, h200]

set_option maxRecDepth 100000 in
/-- Counterexample to C8 as stated: the primary read is rejected with status 404 and
the body `{"message":"Not Found"}`, the probe is rejected with status 500; the error
of `GetLatestRef` is the probe's body behind a fixed text, and the body of the primary
response does not occur in it. -/
theorem GetLatestRef_probe_error_surfaced :
    (scriptedEnv probeFailsScript).send [] (refRequest sampleInfo.client)
      = .ok ⟨404, .ok notFoundBody⟩ ∧
    (GetLatestRef (scriptedEnv probeFailsScript) sampleInfo.client []).1
      = .error ("error occured when check empty repository. " ++ serverErrorBody) ∧
    ¬ Carries ("error occured when check empty repository. " ++ serverErrorBody) notFoundBody := by
  refine ⟨rfl, by decide, ?_⟩
  unfold Carries
  decide

/-- C8, as amended: for every response to the primary read whose status is not 200,
`GetLatestRef` returns a reference and no error exactly when the probe is answered
with status 409, and the reference is then the empty one; when the probe is answered
with status 200 the error is the raw body of the primary response; when the probe
itself fails (it cannot be sent, its body cannot be read, or its status is neither 409
nor 200) the error is the probe's error, for a rejected probe the probe's raw body,
behind the text `error occured when check empty repository. `. -/
theorem GetLatestRef_rejected (env : Env) (git : GitClient) (tr : Trace) (resp : HttpResponse)
    (body : String) (hs : env.send tr (refRequest git) = .ok resp) (hb : resp.Body = .ok body)
    (hc : resp.StatusCode ≠ 200) :
    (∀ ref, (GetLatestRef env git tr).1 = .ok ref ↔
      (ref = {} ∧ ∃ presp pbody, env.send (tr ++ [refRequest git]) (probeRequest git) = .ok presp ∧
        presp.Body = .ok pbody ∧ presp.StatusCode = 409)) ∧
    (∀ presp pbody, env.send (tr ++ [refRequest git]) (probeRequest git) = .ok presp →
      presp.Body = .ok pbody → presp.StatusCode = 200 →
      (GetLatestRef env git tr).1 = .error body) ∧
    (∀ presp pbody, env.send (tr ++ [refRequest git]) (probeRequest git) = .ok presp →
      presp.Body = .ok pbody → presp.StatusCode ≠ 409 → presp.StatusCode ≠ 200 →
      (GetLatestRef env git tr).1
        = .error ("error occured when check empty repository. " ++ pbody)) ∧
    (∀ presp e, env.send (tr ++ [refRequest git]) (probeRequest git) = .ok presp →
      presp.Body = .error e →
      (GetLatestRef env git tr).1 = .error ("error occured when check empty repository. " ++ e)) ∧
    (∀ e, env.send (tr ++ [refRequest git]) (probeRequest git) = .error e →
      (GetLatestRef env git tr).1
        = .error ("error occured when check empty repository. " ++ e)) := by
  have hG : (GetLatestRef env git tr).1 =
      match (IsEmptyRepository env git (tr ++ [refRequest git])).1 with
      | .error err => .error ("error occured when check empty repository. " ++ err)
      | .ok emptyFlg => if emptyFlg then .ok {} else .error body := by
    rcases hp : IsEmptyRepository env git (tr ++ [refRequest git]) with ⟨r, tr2⟩
    rcases r with err | flg
    · simp [GetLatestRef, requestSend, ← refRequest.eq_1, hs, hb, hc, hp]
    · cases flg <;> simp [GetLatestRef, requestSend, ← refRequest.eq_1, hs, hb, hc, hp]
  have hP := IsEmptyRepository_eq env git (tr ++ [refRequest git])
  refine ⟨?_, ?_, ?_, ?_, ?_⟩
  · intro ref
    rcases hps : env.send (tr ++ [refRequest git]) (probeRequest git) with e | presp
    · rw [hG, hP, hps]
      simp
    · rcases hpb : presp.Body with e | pbody
      · rw [hG, hP, hps]
        simp [hpb]
      · by_cases h409 : presp.StatusCode = 409
        · rw [hG, hP, hps]
          simp only [hpb, h409, if_true, Except.ok.injEq]
          constructor
          · intro h
            exact ⟨h.symm, presp, pbody, rfl, hpb, h409⟩
          · intro h
            exact h.1.symm
        · rw [hG, hP, hps]
          by_cases h200 : presp.StatusCode = 200
          · simp only [hpb, h409, h200, if_false, if_true]
            constructor
            · intro h; simp at h
            · rintro ⟨-, q, qb, hq, -, hq409⟩
              simp only [Except.ok.injEq] at hq
              subst hq
              exact absurd hq409 h409
          · simp only [hpb, h409, h200, if_false]
            constructor
            · intro h; simp at h
            · rintro ⟨-, q, qb, hq, -, hq409⟩
              simp only [Except.ok.injEq] at hq
              subst hq
              exact absurd hq409 h409
  · intro presp pbody hps hpb h200
    have h409 : presp.StatusCode ≠ 409 := by omega
    rw [hG, hP, hps]
    simp [hpb, h409, h200]
  · intro presp pbody hps hpb h409 h200
    rw [hG, hP, hps]
    simp [hpb, h409, h200]
  · intro presp e hps hpb
    rw [hG, hP, hps]
    simp [hpb]
  · intro e hps
    rw [hG, hP, hps]

/-- Witness of C8 as amended, on the scripted empty repository: the primary read is
rejected with status 404 and the probe is answered with status 409. -/
theorem GetLatestRef_rejected_witness :
    (∀ ref, (GetLatestRef (scriptedEnv emptyScript) sampleInfo.client []).1 = .ok ref ↔
      (ref = {} ∧ ∃ presp pbody,
        (scriptedEnv emptyScript).send ([] ++ [refRequest sampleInfo.client])
          (probeRequest sampleInfo.client) = .ok presp ∧
        presp.Body = .ok pbody ∧ presp.StatusCode = 409)) ∧
    (GetLatestRef (scriptedEnv emptyScript) sampleInfo.client []).1 = .ok {} :=
  ⟨(GetLatestRef_rejected (scriptedEnv emptyScript) sampleInfo.client [] ⟨404, .ok notFoundBody⟩
      notFoundBody rfl rfl (by decide)).1, by decide⟩

/-! ### C9: repository paths of a walked directory -/

/-- C9 fails on the code: for the root `a/b` and the file `a/b/c/d.txt` the element
gets the repository path `b/c/d.txt`, not `c/d.txt`: only the first component of the
walked path is dropped, whatever the number of components of the root. For the root
`repo_test` of the repository's test the path is the one relative to the root. -/
theorem MakeCommitElementListByLocalPath_drops_one_component :
    MakeCommitElementListByLocalPath walkOfAB '/' "a/b"
      = .ok [{ pathInRepo := "b/c/d.txt", pathInLocal := "a/b/c/d.txt" }] ∧
    repoPathOf '/' "a/b/c/d.txt" ≠ "c/d.txt" ∧
    repoPathOf '/' "/a/b/c/d.txt" = "a/b/c/d.txt" ∧
    MakeCommitElementListByLocalPath walkOfRepoTest '/' "repo_test"
      = .ok [{ pathInRepo := "c/d.txt", pathInLocal := "repo_test/c/d.txt" }] := by
  decide

/-! ### C10: the blob payload of an accepted element -/

/-- C10 fails on the code: `MakeCommitElementByFileData` accepts the empty content
with `encType` `Utf8`, and for the element built `getBlobDataByElement` returns no
error and no payload (`nil, nil`), where the claim requires a payload with the empty
content and the label `utf8`. The create-blob request of the run then carries the
JSON text `null`. For an empty local file the other branch of the same function does
build a payload, with the empty content and the label `base64`. -/
theorem getBlobDataByElement_empty_content :
    MakeCommitElementByFileData "empty.txt" [] Utf8
      = .ok { pathInRepo := "empty.txt", content := [], encodingType := 2 } ∧
    (∀ fuel, getBlobDataByElement (scriptedEnv []) fuel
      { pathInRepo := "empty.txt", content := [], encodingType := 2 } = some (.ok none)) ∧
    blobPayloads (CreateCommitByElement (scriptedEnv oneBlobScript) 8 sampleInfo "d" "m"
      [{ pathInRepo := "empty.txt", content := [], encodingType := 2 }] []).2 = [none] ∧
    getBlobDataByElement (scriptedEnv []) 8
      { pathInRepo := "empty.txt", pathInLocal := "empty.txt" }
      = some (.ok (some { Content := [], Encoding := "base64" })) := by
  refine ⟨by decide, ?_, by decide, by decide⟩
  intro fuel
  simp [getBlobDataByElement]

/-- For every element that `MakeCommitElementByFileData` accepts with a content that
is not empty, `getBlobDataByElement` returns no error and a blob payload whose
content is the supplied content unchanged and whose encoding label is `base64` when
`encType` is `FormattedBinary` and `utf8` when it is `Utf8`. -/
theorem getBlobDataByElement_of_accepted (env : Env) (fuel : Nat) (repoPath : String)
    (fileContent : Bytes) (encType : Int) (element : CommitElement)
    (h : MakeCommitElementByFileData repoPath fileContent encType = .ok element)
    (hne : fileContent ≠ []) :
    (encType = FormattedBinary ∧
      getBlobDataByElement env fuel element
        = some (.ok (some { Content := fileContent, Encoding := "base64" }))) ∨
    (encType = Utf8 ∧
      getBlobDataByElement env fuel element
        = some (.ok (some { Content := fileContent, Encoding := "utf8" }))) := by
  have h12 : Utf8 ≠ FormattedBinary := by decide
  have h10 : FormattedBinary ≠ 0 := by decide
  have h20 : Utf8 ≠ 0 := by decide
  unfold MakeCommitElementByFileData at h
  by_cases h1 : encType = FormattedBinary
  · subst h1
    left
    by_cases hb : isBase64 fileContent = true
    · simp [hb, h12.symm] at h
      subst h
      simp [getBlobDataByElement, hne, h10]
    · simp [hb, h12.symm] at h
  · by_cases h2 : encType = Utf8
    · subst h2
      right
      by_cases hv : utf8.Valid fileContent = true
      · simp [hv, h12] at h
        subst h
        simp [getBlobDataByElement, hne, h20, h12]
      · simp [hv, h12] at h
    · simp [h1, h2] at h

/-- An instance of `getBlobDataByElement_of_accepted`: the text `hi` with `encType`
`Utf8`. -/
theorem getBlobDataByElement_of_accepted_witness :
    (Utf8 = FormattedBinary ∧
      getBlobDataByElement (scriptedEnv []) 8
        { pathInRepo := "test2.txt", content := [byte 104, byte 105], encodingType := 2 }
        = some (.ok (some { Content := [byte 104, byte 105], Encoding := "base64" }))) ∨
    (Utf8 = Utf8 ∧
      getBlobDataByElement (scriptedEnv []) 8
        { pathInRepo := "test2.txt", content := [byte 104, byte 105], encodingType := 2 }
        = some (.ok (some { Content := [byte 104, byte 105], Encoding := "utf8" }))) :=
  getBlobDataByElement_of_accepted (scriptedEnv []) 8 "test2.txt" [byte 104, byte 105] Utf8
    { pathInRepo := "test2.txt", content := [byte 104, byte 105], encodingType := 2 }
    (by decide) (by decide)

/-! ### C11: the reference name sent to create-reference -/

theorem refRequest_endPoint (git : GitClient) :
    (refRequest git).endPoint = refEndPoint git (branchRefName git) := by
  have h : "/git/" ++ "refs/heads/" = "/git/refs/heads/" := by decide
  simp only [refRequest, refEndPoint, branchRefName, String.append_assoc]
  rw [← String.append_assoc "/git/", h]

theorem updRefRequest_endPoint (git : GitClient) (refData : UpdRefData) :
    (updRefRequest git refData).endPoint = refEndPoint git (branchRefName git) := by
  have h : "/git/" ++ "refs/heads/" = "/git/refs/heads/" := by decide
  simp only [updRefRequest, refEndPoint, branchRefName, String.append_assoc]
  rw [← String.append_assoc "/git/", h]

/-- The name built for create-reference is never the name of the branch reference. -/
theorem bootstrap_name_ne_branchRefName (git : GitClient) :
    "ref/head/" ++ git.Branch ≠ branchRefName git := by
  intro h
  have hd := congrArg String.data h
  simp [branchRefName, String.data_append] at hd

/-- C11 fails on the code: in bootstrap mode `CreateCommitByElement` sends to
create-reference the name `ref/head/<Branch>`, while `GetLatestRef` reads and
`UpdateRef` updates the reference `refs/heads/<Branch>`. For the branch `main` of the
scripted empty repository the name sent is `ref/head/main`; and for every client and
every successful bootstrap run the name sent differs from `refs/heads/<Branch>`. -/
theorem CreateCommitByElement_bootstrap_ref_name :
    createRefPayloads (CreateCommitByElement (scriptedEnv emptyScript) 8 sampleInfo "d" "m"
      sampleElements []).2 = [{ Ref := "ref/head/main", Sha := "c1" }] ∧
    branchRefName sampleInfo.client = "refs/heads/main" ∧
    (∀ git : GitClient, (refRequest git).endPoint = refEndPoint git (branchRefName git)) ∧
    (∀ (git : GitClient) (refData : UpdRefData),
      (updRefRequest git refData).endPoint = refEndPoint git (branchRefName git)) ∧
    (∀ (env : Env) (fuel : Nat) (gitInfo : GitInfo) (date commitMsg : String)
        (elementList : List CommitElement) (trace : Trace) (ref : RefResponse)
        (resp : CreateCommitResponse),
      (GetLatestRef env gitInfo.client []).1 = .ok ref → ref.Ref = "" →
      CreateCommitByElement env fuel gitInfo date commitMsg elementList []
      = (some (.ok resp), trace) →
      (createRefPayloads trace).map (fun r => r.Ref) = ["ref/head/" ++ gitInfo.client.Branch] ∧
      "ref/head/" ++ gitInfo.client.Branch ≠ branchRefName gitInfo.client) := by
  refine ⟨by decide, by decide, refRequest_endPoint, updRefRequest_endPoint, ?_⟩
  intro env fuel gitInfo date commitMsg elementList trace ref resp href hempty hrun
  obtain ⟨payloads, blobResps, treeResp, -, -, -, -, -, htr⟩ :=
    CreateCommitByElement_empty env fuel gitInfo date commitMsg elementList [] trace ref resp
      href hempty hrun
  obtain ⟨-, -, hb3, -, -, -⟩ := payloads_of_blobRequests gitInfo.client payloads
  obtain ⟨-, -, hr3, -, -, -⟩ := payloads_of_GetLatestRef env gitInfo.client
  refine ⟨?_, bootstrap_name_ne_branchRefName gitInfo.client⟩
  rw [htr]
  simp only [createRefPayloads_append, hb3, hr3]
  simp [createRefPayloads, treeRequest, commitRequest, createRefRequest]

end service

end GoGituse
